import Mathlib

/-!
Verification development for the skill-tree generation core of the repository
(file newServer.js).  The core is shallowly embedded: the external generative
model is represented by two streams of pre-parsed replies (one for the
content-only prompt, one for the full-tree prompt), the on-disk JSON cache by
an association list from sanitized keys to nodes, and each model call or disk
write by explicit state passing.  A reply of the form Except.error covers both
a failed model call and unparseable output (the code treats the two the same
way: both throw inside the same try block).  The asynchronous execution of the
original JavaScript is sequentialized left-to-right; within one invocation the
cache-miss path awaits one child at a time, while the cache-hit hydration path
uses map with an await inside, which this sequential embedding also
represents as a left-to-right traversal.
-/

/-- A practice problem, the elements of practiceProblems: an object with
fields q and s as requested from the model. -/
structure QS where
  q : String
  s : String
deriving DecidableEq, Repr

/-- A video tutorial / reference, the elements of videoTutorials: an object
with fields title and url. -/
structure Rf where
  title : String
  url : String
deriving DecidableEq, Repr

/-- A skill-tree node as the JavaScript code manipulates it.  Every field
except the name may be absent on a given object (stub children carry only a
name; the degraded error node carries a description), so each is an Option.
none models a JavaScript object lacking that key. -/
inductive Node : Type where
  | mk (name : String) (description : Option String) (children : Option (List Node))
       (practiceProblems : Option (List QS)) (videoTutorials : Option (List Rf))
       (collapsed : Option Bool)

def Node.name : Node → String
  | .mk nm _ _ _ _ _ => nm

def Node.description : Node → Option String
  | .mk _ d _ _ _ _ => d

def Node.children : Node → Option (List Node)
  | .mk _ _ ch _ _ _ => ch

def Node.practiceProblems : Node → Option (List QS)
  | .mk _ _ _ pp _ _ => pp

def Node.videoTutorials : Node → Option (List Rf)
  | .mk _ _ _ _ vt _ => vt

def Node.collapsed : Node → Option Bool
  | .mk _ _ _ _ _ co => co

@[simp] theorem Node.name_mk (nm : String) (d : Option String) (ch : Option (List Node))
    (pp : Option (List QS)) (vt : Option (List Rf)) (co : Option Bool) :
    (Node.mk nm d ch pp vt co).name = nm := rfl

@[simp] theorem Node.description_mk (nm : String) (d : Option String) (ch : Option (List Node))
    (pp : Option (List QS)) (vt : Option (List Rf)) (co : Option Bool) :
    (Node.mk nm d ch pp vt co).description = d := rfl

@[simp] theorem Node.children_mk (nm : String) (d : Option String) (ch : Option (List Node))
    (pp : Option (List QS)) (vt : Option (List Rf)) (co : Option Bool) :
    (Node.mk nm d ch pp vt co).children = ch := rfl

@[simp] theorem Node.practiceProblems_mk (nm : String) (d : Option String)
    (ch : Option (List Node)) (pp : Option (List QS)) (vt : Option (List Rf))
    (co : Option Bool) :
    (Node.mk nm d ch pp vt co).practiceProblems = pp := rfl

@[simp] theorem Node.videoTutorials_mk (nm : String) (d : Option String)
    (ch : Option (List Node)) (pp : Option (List QS)) (vt : Option (List Rf))
    (co : Option Bool) :
    (Node.mk nm d ch pp vt co).videoTutorials = vt := rfl

@[simp] theorem Node.collapsed_mk (nm : String) (d : Option String) (ch : Option (List Node))
    (pp : Option (List QS)) (vt : Option (List Rf)) (co : Option Bool) :
    (Node.mk nm d ch pp vt co).collapsed = co := rfl

/-- The children list read with a default, as in code that iterates only under
a guard; a missing children key behaves like an empty list for iteration. -/
def Node.childrenList (n : Node) : List Node := n.children.getD []

/-- Assignment node.children = cs. -/
def Node.setChildren : Node → Option (List Node) → Node
  | .mk nm d _ pp vt co, ch => .mk nm d ch pp vt co

/-- Assignment node.collapsed = b (the code only ever assigns true). -/
def Node.setCollapsed : Node → Bool → Node
  | .mk nm d ch pp vt _, b => .mk nm d ch pp vt (some b)

/-- The result of parsing the reply to the content-only prompt: a JSON object
that may or may not carry each of the two requested keys. -/
structure RawContent where
  practiceProblems : Option (List QS)
  videoTutorials : Option (List Rf)
deriving Repr

/-- The world state threaded through the core: the disk cache (one entry per
sanitized key, most recent write first), the two streams of model replies
still to be consumed, and a counter of model invocations made so far. -/
structure St where
  cache : List (String × Node)
  contentReplies : List (Except String RawContent)
  treeReplies : List (Except String Node)
  calls : Nat

/-- Character admitted unchanged by the sanitizer: the regex class
[a-zA-Z0-9-] of topic.replace, expressed on code points (97-122 is a-z,
65-90 is A-Z, 48-57 is 0-9, 45 is the hyphen). -/
def isKeyChar (c : Char) : Bool :=
  (97 ≤ c.toNat && c.toNat ≤ 122) || (65 ≤ c.toNat && c.toNat ≤ 90) ||
  (48 ≤ c.toNat && c.toNat ≤ 57) || c.toNat == 45

/-- One character of topic.replace(/[^a-zA-Z0-9-]/g, "_"). -/
def sanitizeChar (c : Char) : Char :=
  if isKeyChar c then c else '_'

/-- One character of String.prototype.toLowerCase.  The sanitizer applies it
only after the replacement step, whose output alphabet is ASCII; on that
alphabet toLowerCase is exactly the A-Z to a-z shift. -/
def lowerChar (c : Char) : Char :=
  if 65 ≤ c.toNat && c.toNat ≤ 90 then Char.ofNat (c.toNat + 32) else c

/-- sanitizeTopicName (newServer.js line 24): replace every character outside
[a-zA-Z0-9-] by an underscore, then lower-case the result. -/
def sanitizeTopicName (topic : String) : String :=
  String.mk ((topic.data.map sanitizeChar).map lowerChar)

/-- First value stored under a key, mirroring a read of the file named by the
key; later writes shadow earlier ones because stores prepend. -/
def cacheLookup (cache : List (String × Node)) (key : String) : Option Node :=
  match cache with
  | [] => none
  | (k, v) :: rest => if k = key then some v else cacheLookup rest key

/-- fs.writeFileSync of the serialized node at the key's path (full
overwrite). -/
def cacheStore (st : St) (key : String) (n : Node) : St :=
  { st with cache := (key, n) :: st.cache }

/-- jsonFileExists (newServer.js line 29): does a cache file for this topic
exist (keys are sanitized topic names; the constant ".json" suffix is
dropped). -/
def jsonFileExists (cache : List (String × Node)) (topic : String) : Bool :=
  (cacheLookup cache (sanitizeTopicName topic)).isSome

/-- Consume the next reply to a content-only prompt, counting the model
invocation.  An exhausted stream behaves like a failed call. -/
def popContentReply (st : St) : Except String RawContent × St :=
  match st.contentReplies with
  | [] => (.error "no response", { st with calls := st.calls + 1 })
  | r :: rest => (r, { st with contentReplies := rest, calls := st.calls + 1 })

/-- Consume the next reply to a full-tree prompt, counting the model
invocation. -/
def popTreeReply (st : St) : Except String Node × St :=
  match st.treeReplies with
  | [] => (.error "no response", { st with calls := st.calls + 1 })
  | r :: rest => (r, { st with treeReplies := rest, calls := st.calls + 1 })

/-- generateSkillContent_Gemini (newServer.js lines 64-111): ask the model
for practice problems and video tutorials for one skill; on any call or parse
error return the object with both lists present and empty.  The skill name and
ancestors shape only the prompt, not the control flow. -/
def generateSkillContent_Gemini (skillName : String) (ancestors : List String) (st : St) :
    RawContent × St :=
  let _ := skillName
  let _ := ancestors
  match popContentReply st with
  | (.ok c, st') => (c, st')
  | (.error _, st') => ({ practiceProblems := some [], videoTutorials := some [] }, st')

/-- Truthiness test of lines 128-129 / 233-234 for one content field: the key
is missing or its array is empty. -/
def missingList {α : Type} : Option (List α) → Bool
  | none => true
  | some l => l.isEmpty

/-- The guard of the backfill steps (lines 128-129 and 233-234): either
content field missing or empty. -/
def contentMissing (n : Node) : Bool :=
  missingList n.practiceProblems || missingList n.videoTutorials

/-- The JavaScript spread merge  { ...node, ...content } : a key present on
the content object overwrites the node's, a key absent on it leaves the
node's. -/
def mergeContent (n : Node) (c : RawContent) : Node :=
  match n with
  | .mk nm d ch pp vt co =>
    .mk nm d ch (match c.practiceProblems with | some l => some l | none => pp)
      (match c.videoTutorials with | some l => some l | none => vt) co

/-- The dedup filter (lines 244-250): drop every child whose sanitized name
already has a cache entry anywhere in the store. -/
def dedupChildren (cache : List (String × Node)) (cs : List Node) : List Node :=
  cs.filter (fun child => !(jsonFileExists cache child.name))

/-- The truncation step (lines 251-255): cap the children to 6 for a request
root (no ancestors) and to 4 otherwise. -/
def truncateChildren (ancestors : List String) (cs : List Node) : List Node :=
  let maxAllowedChildren := if ancestors.length = 0 then 6 else 4
  if cs.length > maxAllowedChildren then cs.take maxAllowedChildren else cs

/-- The forEach of lines 164-168 / 272-274: set collapsed = true on every
child, in memory. -/
def collapseChildren (n : Node) : Node :=
  match n.children with
  | some cs => n.setChildren (some (cs.map (fun c => c.setCollapsed true)))
  | none => n

/-- The degraded node built by the catch block of lines 282-297. -/
def degradedNode (skillName : String) (msg : String) : Node :=
  .mk skillName (some ("Error generating data for " ++ skillName ++ "."))
    (some []) (some [{ q := "Error", s := msg }]) (some []) none

/-- The type of the recursive builder a parent hands to its children loop. -/
abbrev Builder : Type := String → List String → St → Node × St

/-- The sequential children loop (lines 261-268, and the sequentialized
Promise.all of lines 146-155): build each child in order with the given
builder, set collapsed = true on each result, collect results in order. -/
def buildChildrenSeq (bf : Builder) (ancestors : List String) :
    List Node → St → List Node × St
  | [], st => ([], st)
  | c :: cs, st =>
    let p := bf c.name ancestors st
    let child := p.1.setCollapsed true
    let rest := buildChildrenSeq bf ancestors cs p.2
    (child :: rest.1, rest.2)

/-- The backfill of the cache-hit path (lines 127-135): if the content pair
is missing or empty, ask the content synthesizer, merge, and persist the
merged node under the topic's key. -/
def backfillPersist (skillName : String) (ancestors : List String) (n : Node) (st : St) :
    Node × St :=
  if contentMissing n then
    let pc := generateSkillContent_Gemini skillName ancestors st
    let merged := mergeContent n pc.1
    (merged, cacheStore pc.2 (sanitizeTopicName skillName) merged)
  else (n, st)

/-- The backfill of the cache-miss path (lines 232-239): same merge, but with
no persist at this point. -/
def backfillPair (skillName : String) (ancestors : List String) (n : Node) (st : St) :
    Node × St :=
  if contentMissing n then
    let pc := generateSkillContent_Gemini skillName ancestors st
    (mergeContent n pc.1, pc.2)
  else (n, st)

/-- The hydration step of the cache-hit path (lines 141-160): with depth
budget left (a builder present) and a non-empty children list whose first
entry is a stub (no practiceProblems key), rebuild every child through the
builder and persist the hydrated node; otherwise leave the pair alone. -/
def hydrateStep : Option Builder → String → List String → Node × St → Node × St
  | none, _, _, nst => nst
  | some bf, skillName, ancestors, nst =>
    match nst.1.children with
    | some (c₀ :: cs) =>
      if (c₀.practiceProblems).isNone then
        let r := buildChildrenSeq bf (ancestors ++ [nst.1.name]) (c₀ :: cs) nst.2
        let hydrated := nst.1.setChildren (some r.1)
        (hydrated, cacheStore r.2 (sanitizeTopicName skillName) hydrated)
      else nst
    | _ => nst

/-- The cache-hit path of generateSkillTree_Gemini (lines 122-170): load the
entry, backfill-and-persist a missing content pair, hydrate stub children if
there is depth budget, and finally mark all children collapsed in memory (not
persisted) and return. -/
def genHit (recurse : Option Builder) (skillName : String) (ancestors : List String)
    (existing₀ : Node) (st₀ : St) : Node × St :=
  let hb := backfillPersist skillName ancestors existing₀ st₀
  let hh := hydrateStep recurse skillName ancestors hb
  (collapseChildren hh.1, hh.2)

/-- The dedup-and-truncate step of the cache-miss path (lines 242-256),
applied only when the children list is present and non-empty. -/
def missFilterStep (ancestors : List String) (nst : Node × St) : Node :=
  match nst.1.children with
  | some (c :: cs) =>
    nst.1.setChildren (some (truncateChildren ancestors (dedupChildren nst.2.cache (c :: cs))))
  | _ => nst.1

/-- The children block of the cache-miss path (lines 258-276): with depth
budget left, rebuild every child through the builder; with no budget left,
mark the stub children collapsed; with no children, do nothing. -/
def missChildrenStep : Option Builder → List String → Node → St → Node × St
  | some bf, ancestors, data₂, st₂ =>
    (match data₂.children with
     | some (c :: cs) =>
       let r := buildChildrenSeq bf (ancestors ++ [data₂.name]) (c :: cs) st₂
       (data₂.setChildren (some r.1), r.2)
     | _ => (data₂, st₂))
  | none, _, data₂, st₂ =>
    (match data₂.children with
     | some (_ :: _) => (collapseChildren data₂, st₂)
     | _ => (data₂, st₂))

/-- The cache-miss path after a successful parse (lines 230-280): backfill a
missing content pair (no persist yet), dedup and truncate the children, run
the children block, and finally persist the node under the requested topic's
key and return it. -/
def genMiss (recurse : Option Builder) (skillName : String) (ancestors : List String)
    (data₀ : Node) (st₁ : St) : Node × St :=
  let mb := backfillPair skillName ancestors data₀ st₁
  let data₂ := missFilterStep ancestors mb
  let mr := missChildrenStep recurse ancestors data₂ mb.2
  (mr.1, cacheStore mr.2 (sanitizeTopicName skillName) mr.1)

/-- One level of generateSkillTree_Gemini: dispatch on cache presence; on a
miss consume one tree reply, turning an error into the degraded node without
persisting (lines 282-297).  recurse = some bf exactly when depth < maxDepth,
bf being the builder for depth + 1. -/
def genCore (recurse : Option Builder) (skillName : String) (ancestors : List String)
    (st₀ : St) : Node × St :=
  match cacheLookup st₀.cache (sanitizeTopicName skillName) with
  | some existing₀ => genHit recurse skillName ancestors existing₀ st₀
  | none =>
    match popTreeReply st₀ with
    | (.error msg, st₁) => (degradedNode skillName msg, st₁)
    | (.ok data₀, st₁) => genMiss recurse skillName ancestors data₀ st₁

/-- The builder indexed by remaining depth budget (maxDepth - depth): budget
zero never recurses, budget f+1 builds children with budget f. -/
def generateSkillTreeFuel : Nat → String → List String → St → Node × St
  | 0, skillName, ancestors, st => genCore none skillName ancestors st
  | f + 1, skillName, ancestors, st =>
    genCore (some (fun nm anc s => generateSkillTreeFuel f nm anc s)) skillName ancestors st

/-- generateSkillTree_Gemini (newServer.js lines 118-298).  depth and
maxDepth enter the control flow only through the guard depth < maxDepth and
the recursive depth + 1, hence only through the budget maxDepth - depth. -/
def generateSkillTree_Gemini (skillName : String) (ancestors : List String)
    (depth maxDepth : Nat) (st : St) : Node × St :=
  generateSkillTreeFuel (maxDepth - depth) skillName ancestors st

-- ### Small field lemmas about node updates

@[simp] theorem Node.name_setChildren (n : Node) (ch : Option (List Node)) :
    (n.setChildren ch).name = n.name := by cases n; rfl

@[simp] theorem Node.children_setChildren (n : Node) (ch : Option (List Node)) :
    (n.setChildren ch).children = ch := by cases n; rfl

@[simp] theorem Node.practiceProblems_setChildren (n : Node) (ch : Option (List Node)) :
    (n.setChildren ch).practiceProblems = n.practiceProblems := by cases n; rfl

@[simp] theorem Node.videoTutorials_setChildren (n : Node) (ch : Option (List Node)) :
    (n.setChildren ch).videoTutorials = n.videoTutorials := by cases n; rfl

@[simp] theorem Node.collapsed_setChildren (n : Node) (ch : Option (List Node)) :
    (n.setChildren ch).collapsed = n.collapsed := by cases n; rfl

@[simp] theorem Node.description_setChildren (n : Node) (ch : Option (List Node)) :
    (n.setChildren ch).description = n.description := by cases n; rfl

@[simp] theorem Node.name_setCollapsed (n : Node) (b : Bool) :
    (n.setCollapsed b).name = n.name := by cases n; rfl

@[simp] theorem Node.children_setCollapsed (n : Node) (b : Bool) :
    (n.setCollapsed b).children = n.children := by cases n; rfl

@[simp] theorem Node.practiceProblems_setCollapsed (n : Node) (b : Bool) :
    (n.setCollapsed b).practiceProblems = n.practiceProblems := by cases n; rfl

@[simp] theorem Node.videoTutorials_setCollapsed (n : Node) (b : Bool) :
    (n.setCollapsed b).videoTutorials = n.videoTutorials := by cases n; rfl

@[simp] theorem Node.collapsed_setCollapsed (n : Node) (b : Bool) :
    (n.setCollapsed b).collapsed = some b := by cases n; rfl

@[simp] theorem Node.description_setCollapsed (n : Node) (b : Bool) :
    (n.setCollapsed b).description = n.description := by cases n; rfl

@[simp] theorem mergeContent_name (n : Node) (c : RawContent) :
    (mergeContent n c).name = n.name := by cases n; rfl

@[simp] theorem mergeContent_children (n : Node) (c : RawContent) :
    (mergeContent n c).children = n.children := by cases n; rfl

@[simp] theorem mergeContent_collapsed (n : Node) (c : RawContent) :
    (mergeContent n c).collapsed = n.collapsed := by cases n; rfl

theorem mergeContent_practiceProblems (n : Node) (c : RawContent) :
    (mergeContent n c).practiceProblems =
      (match c.practiceProblems with | some l => some l | none => n.practiceProblems) := by
  cases n; rfl

theorem mergeContent_videoTutorials (n : Node) (c : RawContent) :
    (mergeContent n c).videoTutorials =
      (match c.videoTutorials with | some l => some l | none => n.videoTutorials) := by
  cases n; rfl

theorem collapseChildren_children (n : Node) :
    (collapseChildren n).children =
      n.children.map (fun cs => cs.map (fun c => c.setCollapsed true)) := by
  cases n with
  | mk nm d ch pp vt co => cases ch <;> rfl

@[simp] theorem collapseChildren_name (n : Node) : (collapseChildren n).name = n.name := by
  cases n with
  | mk nm d ch pp vt co => cases ch <;> rfl

@[simp] theorem collapseChildren_practiceProblems (n : Node) :
    (collapseChildren n).practiceProblems = n.practiceProblems := by
  cases n with
  | mk nm d ch pp vt co => cases ch <;> rfl

@[simp] theorem collapseChildren_videoTutorials (n : Node) :
    (collapseChildren n).videoTutorials = n.videoTutorials := by
  cases n with
  | mk nm d ch pp vt co => cases ch <;> rfl

@[simp] theorem collapseChildren_description (n : Node) :
    (collapseChildren n).description = n.description := by
  cases n with
  | mk nm d ch pp vt co => cases ch <;> rfl

-- ### Key normalizer: idempotence (claim C7)

theorem toNat_charOfNat (n : Nat) (h1 : 97 ≤ n) (h2 : n ≤ 122) :
    (Char.ofNat n).toNat = n := by
  have hv : n.isValidChar := Or.inl (by omega)
  simp [Char.ofNat, hv, Char.ofNatAux, Char.toNat, UInt32.toNat]

theorem lower_sanitize_idem (c : Char) :
    lowerChar (sanitizeChar (lowerChar (sanitizeChar c))) = lowerChar (sanitizeChar c) := by
  by_cases hk : isKeyChar c
  · simp only [sanitizeChar, if_pos hk]
    by_cases hu : (65 ≤ c.toNat && c.toNat ≤ 90) = true
    · have hlc : lowerChar c = Char.ofNat (c.toNat + 32) := by rw [lowerChar, if_pos hu]
      rw [hlc]
      have hb : 97 ≤ c.toNat + 32 ∧ c.toNat + 32 ≤ 122 := by
        simp only [Bool.and_eq_true, decide_eq_true_eq] at hu; omega
      have ht : (Char.ofNat (c.toNat + 32)).toNat = c.toNat + 32 :=
        toNat_charOfNat _ hb.1 hb.2
      have hk2 : isKeyChar (Char.ofNat (c.toNat + 32)) = true := by
        simp only [isKeyChar, ht, Bool.or_eq_true, Bool.and_eq_true, decide_eq_true_eq,
          beq_iff_eq]
        omega
      rw [if_pos hk2, lowerChar,
        if_neg (by simp only [ht, Bool.and_eq_true, decide_eq_true_eq]; omega)]
    · have hlc : lowerChar c = c := by rw [lowerChar, if_neg hu]
      rw [hlc, if_pos hk, hlc]
  · simp only [sanitizeChar, if_neg hk]
    decide

/-- C7: the topic key normalizer is a total function on strings (it is
defined by structural recursion over the characters, with no partiality), it
is deterministic (it is a function), and it is idempotent on every non-empty
string: sanitizing twice equals sanitizing once. -/
theorem sanitizeTopicName_idempotent (x : String) (h : x ≠ "") :
    sanitizeTopicName (sanitizeTopicName x) = sanitizeTopicName x := by
  clear h
  show sanitizeTopicName (String.mk ((x.data.map sanitizeChar).map lowerChar)) = _
  rw [sanitizeTopicName, sanitizeTopicName]
  apply congrArg String.mk
  show ((((x.data.map sanitizeChar).map lowerChar).map sanitizeChar).map lowerChar) = _
  generalize x.data = d
  induction d with
  | nil => rfl
  | cons a t ih =>
    simp only [List.map_cons, List.cons.injEq]
    exact ⟨lower_sanitize_idem a, ih⟩

theorem sanitizeTopicName_idempotent_witness :
    ("Quantum Foo!" : String) ≠ "" ∧
      sanitizeTopicName (sanitizeTopicName "Quantum Foo!") = sanitizeTopicName "Quantum Foo!" :=
  ⟨by decide, sanitizeTopicName_idempotent "Quantum Foo!" (by decide)⟩

-- ### Claim C4: truncation after dedup

theorem truncateChildren_eq_take (ancestors : List String) (l : List Node) :
    truncateChildren ancestors l = l.take (if ancestors.length = 0 then 6 else 4) := by
  simp only [truncateChildren]
  by_cases ha : ancestors.length = 0
  · simp only [if_pos ha]
    split
    · rfl
    · rw [List.take_of_length_le (by omega)]
  · simp only [if_neg ha]
    split
    · rfl
    · rw [List.take_of_length_le (by omega)]

/-- C4: during a cache-miss synthesis the children surviving dedup are capped
in input order to the first 6 when the ancestors list is empty and to the
first 4 otherwise (a take of the deduped list, hence order-preserving and of
bounded length); in particular 8 surviving stubs keep exactly the first 6 for
a root and exactly the first 4 for a non-root node. -/
theorem truncate_after_dedup :
    (∀ (cache : List (String × Node)) (ancestors : List String) (cs : List Node),
        truncateChildren ancestors (dedupChildren cache cs) =
          (dedupChildren cache cs).take (if ancestors.length = 0 then 6 else 4) ∧
        (truncateChildren ancestors (dedupChildren cache cs)).length ≤
          (if ancestors.length = 0 then 6 else 4)) ∧
    truncateChildren [] (dedupChildren []
        [Node.mk "s1" none none none none none, Node.mk "s2" none none none none none,
         Node.mk "s3" none none none none none, Node.mk "s4" none none none none none,
         Node.mk "s5" none none none none none, Node.mk "s6" none none none none none,
         Node.mk "s7" none none none none none, Node.mk "s8" none none none none none]) =
      [Node.mk "s1" none none none none none, Node.mk "s2" none none none none none,
       Node.mk "s3" none none none none none, Node.mk "s4" none none none none none,
       Node.mk "s5" none none none none none, Node.mk "s6" none none none none none] ∧
    truncateChildren ["Parent"] (dedupChildren []
        [Node.mk "s1" none none none none none, Node.mk "s2" none none none none none,
         Node.mk "s3" none none none none none, Node.mk "s4" none none none none none,
         Node.mk "s5" none none none none none, Node.mk "s6" none none none none none,
         Node.mk "s7" none none none none none, Node.mk "s8" none none none none none]) =
      [Node.mk "s1" none none none none none, Node.mk "s2" none none none none none,
       Node.mk "s3" none none none none none, Node.mk "s4" none none none none none] := by
  refine ⟨fun cache ancestors cs => ⟨truncateChildren_eq_take _ _, ?_⟩, rfl, rfl⟩
  rw [truncateChildren_eq_take]
  exact List.length_take_le _ _

-- ### Claim C5: global dedup against the cache

/-- C5: for every cache state and freshly synthesized children list, the list
surviving the dedup step contains no child whose sanitized name has a cache
entry anywhere in the store, and the survivors are a sublist of the input
(original relative order preserved). -/
theorem dedup_removes_cached (cache : List (String × Node)) (cs : List Node) :
    (∀ c ∈ dedupChildren cache cs, jsonFileExists cache c.name = false) ∧
    (dedupChildren cache cs).Sublist cs := by
  constructor
  · intro c hc
    have h := (List.mem_filter.mp hc).2
    simpa using h
  · exact List.filter_sublist cs

-- ### Claim C8: the content synthesizer is fail-soft and retry-free

/-- C8: on a failed model call or unparseable output (an error reply), the
content synthesizer returns exactly the object with empty practiceProblems
and empty videoTutorials, consumes exactly the one reply (no retry), and
never raises (it is a total function). -/
theorem generateSkillContent_failure (skillName : String) (ancestors : List String)
    (st : St) (msg : String) (rest : List (Except String RawContent))
    (h : st.contentReplies = .error msg :: rest) :
    generateSkillContent_Gemini skillName ancestors st =
      ({ practiceProblems := some [], videoTutorials := some [] },
       { st with contentReplies := rest, calls := st.calls + 1 }) := by
  simp [generateSkillContent_Gemini, popContentReply, h]

theorem generateSkillContent_failure_witness :
    ({ cache := [], contentReplies := [.error "boom"], treeReplies := [], calls := 0 } :
        St).contentReplies = .error "boom" :: [] ∧
    generateSkillContent_Gemini "Trees" []
        { cache := [], contentReplies := [.error "boom"], treeReplies := [], calls := 0 } =
      ({ practiceProblems := some [], videoTutorials := some [] },
       { cache := [], contentReplies := [], treeReplies := [], calls := 1 }) :=
  ⟨rfl, generateSkillContent_failure "Trees" [] _ "boom" [] rfl⟩

-- ### Claim C2: irrecoverable tree-synthesis failure

theorem genCore_error (recurse : Option Builder) (skillName : String)
    (ancestors : List String) (st : St) (msg : String) (rest : List (Except String Node))
    (h1 : cacheLookup st.cache (sanitizeTopicName skillName) = none)
    (h2 : st.treeReplies = .error msg :: rest) :
    genCore recurse skillName ancestors st =
      (degradedNode skillName msg, { st with treeReplies := rest, calls := st.calls + 1 }) := by
  simp [genCore, h1, popTreeReply, h2]

/-- The state used to exercise the failure path of claim C2. -/
def stC2 : St :=
  { cache := [], contentReplies := [], treeReplies := [.error "model call failed"], calls := 0 }

/-- C2 counterexample: on an uncached topic whose tree synthesis fails, the
returned node carries the claimed name, children, practiceProblems and
videoTutorials — but it is not EXACTLY the claimed shape: it also carries an
extra description field, so the claim as stated is false. -/
theorem degraded_exact_shape_counterexample :
    cacheLookup stC2.cache (sanitizeTopicName "Quantum Foo") = none ∧
    (generateSkillTree_Gemini "Quantum Foo" [] 0 1 stC2).1.name = "Quantum Foo" ∧
    (generateSkillTree_Gemini "Quantum Foo" [] 0 1 stC2).1.children = some [] ∧
    (generateSkillTree_Gemini "Quantum Foo" [] 0 1 stC2).1.practiceProblems =
      some [{ q := "Error", s := "model call failed" }] ∧
    (generateSkillTree_Gemini "Quantum Foo" [] 0 1 stC2).1.videoTutorials = some [] ∧
    ¬ ((generateSkillTree_Gemini "Quantum Foo" [] 0 1 stC2).1.description = none) :=
  ⟨rfl, rfl, rfl, rfl, rfl, by decide⟩

/-- C2 amended: when the tree synthesis for an uncached topic fails
irrecoverably, the build returns — without raising, for any depth budget —
the degraded node {name: topic, children: [], practiceProblems:
[{q: "Error", s: message}], videoTutorials: []} carrying additionally an
undocumented description field ("Error generating data for topic."), it
consumes exactly the one failed model call, and it persists nothing: the
cache is returned unchanged, in particular with no entry under the topic's
key. -/
theorem buildFailure_degraded_node (skillName : String) (ancestors : List String)
    (depth maxDepth : Nat) (st : St) (msg : String) (rest : List (Except String Node))
    (h1 : cacheLookup st.cache (sanitizeTopicName skillName) = none)
    (h2 : st.treeReplies = .error msg :: rest) :
    generateSkillTree_Gemini skillName ancestors depth maxDepth st =
      (degradedNode skillName msg, { st with treeReplies := rest, calls := st.calls + 1 }) := by
  rw [generateSkillTree_Gemini]
  cases hf : maxDepth - depth with
  | zero =>
    simp only [generateSkillTreeFuel]
    exact genCore_error none skillName ancestors st msg rest h1 h2
  | succ f =>
    simp only [generateSkillTreeFuel]
    exact genCore_error _ skillName ancestors st msg rest h1 h2

theorem buildFailure_degraded_node_witness :
    cacheLookup stC2.cache (sanitizeTopicName "Quantum Foo") = none ∧
    stC2.treeReplies = .error "model call failed" :: [] ∧
    generateSkillTree_Gemini "Quantum Foo" [] 0 1 stC2 =
      (degradedNode "Quantum Foo" "model call failed",
       { stC2 with treeReplies := [], calls := stC2.calls + 1 }) :=
  ⟨rfl, rfl, buildFailure_degraded_node "Quantum Foo" [] 0 1 stC2 "model call failed" [] rfl rfl⟩

-- ### Claim C3: idempotence of a repeated build

/-- A first-build state whose synthesis succeeds but leaves the persisted
entry with empty content (the model omitted content and the backfill call
failed): the second build then backfills again, invoking the model. -/
def stC3 : St :=
  { cache := [], contentReplies := [.error "x", .error "y"],
    treeReplies := [.ok (.mk "Cats" none (some []) (some []) (some []) none)], calls := 0 }

/-- C3 counterexample: the first build succeeds and persists a cache entry,
yet the second build of the same topic makes a further model invocation (the
persisted content pair is empty, so the cache-hit path backfills), so the
claim as stated is false. -/
theorem second_build_invokes_model_counterexample :
    cacheLookup stC3.cache (sanitizeTopicName "Cats") = none ∧
    (cacheLookup (generateSkillTree_Gemini "Cats" [] 0 0 stC3).2.cache
        (sanitizeTopicName "Cats")).isSome = true ∧
    ¬ ((generateSkillTree_Gemini "Cats" [] 0 0
          (generateSkillTree_Gemini "Cats" [] 0 0 stC3).2).2.calls =
        (generateSkillTree_Gemini "Cats" [] 0 0 stC3).2.calls) :=
  ⟨rfl, rfl, by decide⟩

/-- C3 amended: if a first build of an uncached topic succeeds and persists
its result, and the persisted node's practiceProblems and videoTutorials are
both non-empty, then a second build of the same topic returns a node with
the same root name and the same practiceProblems and videoTutorials, and
leaves the state — in particular the model-invocation count — completely
unchanged: it is served entirely from the cache. -/
theorem build_idempotent_on_hydrated_cache (topic : String) (st₀ st₁ : St) (n₁ : Node)
    (h0 : cacheLookup st₀.cache (sanitizeTopicName topic) = none)
    (h1 : generateSkillTree_Gemini topic [] 0 0 st₀ = (n₁, st₁))
    (h2 : cacheLookup st₁.cache (sanitizeTopicName topic) = some n₁)
    (h3 : missingList n₁.practiceProblems = false)
    (h4 : missingList n₁.videoTutorials = false) :
    (generateSkillTree_Gemini topic [] 0 0 st₁).1.name = n₁.name ∧
    (generateSkillTree_Gemini topic [] 0 0 st₁).1.practiceProblems = n₁.practiceProblems ∧
    (generateSkillTree_Gemini topic [] 0 0 st₁).1.videoTutorials = n₁.videoTutorials ∧
    (generateSkillTree_Gemini topic [] 0 0 st₁).2 = st₁ := by
  have hcm : contentMissing n₁ = false := by rw [contentMissing, h3, h4]; rfl
  have hb : backfillPersist topic [] n₁ st₁ = (n₁, st₁) := by
    simp [backfillPersist, hcm]
  simp only [generateSkillTree_Gemini, Nat.sub_self, generateSkillTreeFuel, genCore, h2,
    genHit, hb, hydrateStep]
  simp

/-- A first-build state whose synthesis succeeds with full content, so the
persisted entry is hydrated and the amended idempotence applies. -/
def stC3w : St :=
  { cache := [], contentReplies := [],
    treeReplies :=
      [.ok (.mk "Cats" none (some []) (some [{ q := "q", s := "s" }])
        (some [{ title := "t", url := "u" }]) none)],
    calls := 0 }

theorem build_idempotent_on_hydrated_cache_witness :
    cacheLookup stC3w.cache (sanitizeTopicName "Cats") = none ∧
    missingList (generateSkillTree_Gemini "Cats" [] 0 0 stC3w).1.practiceProblems = false ∧
    missingList (generateSkillTree_Gemini "Cats" [] 0 0 stC3w).1.videoTutorials = false ∧
    ((generateSkillTree_Gemini "Cats" [] 0 0
        (generateSkillTree_Gemini "Cats" [] 0 0 stC3w).2).1.name =
      (generateSkillTree_Gemini "Cats" [] 0 0 stC3w).1.name ∧
     (generateSkillTree_Gemini "Cats" [] 0 0
        (generateSkillTree_Gemini "Cats" [] 0 0 stC3w).2).1.practiceProblems =
      (generateSkillTree_Gemini "Cats" [] 0 0 stC3w).1.practiceProblems ∧
     (generateSkillTree_Gemini "Cats" [] 0 0
        (generateSkillTree_Gemini "Cats" [] 0 0 stC3w).2).1.videoTutorials =
      (generateSkillTree_Gemini "Cats" [] 0 0 stC3w).1.videoTutorials ∧
     (generateSkillTree_Gemini "Cats" [] 0 0
        (generateSkillTree_Gemini "Cats" [] 0 0 stC3w).2).2 =
      (generateSkillTree_Gemini "Cats" [] 0 0 stC3w).2) :=
  ⟨rfl, rfl, rfl,
    build_idempotent_on_hydrated_cache "Cats" stC3w
      (generateSkillTree_Gemini "Cats" [] 0 0 stC3w).2
      (generateSkillTree_Gemini "Cats" [] 0 0 stC3w).1 rfl rfl rfl rfl rfl⟩

-- ### Claim C10: a failed child is persisted inside the parent's entry

theorem Node.setChildren_setChildren (n : Node) (a b : Option (List Node)) :
    (n.setChildren a).setChildren b = n.setChildren b := by cases n; rfl

theorem Node.setChildren_self (n : Node) : n.setChildren n.children = n := by cases n; rfl

theorem Node.setCollapsed_setCollapsed (n : Node) (b b' : Bool) :
    (n.setCollapsed b).setCollapsed b' = n.setCollapsed b' := by cases n; rfl

theorem collapseChildren_of_children_some (n : Node) (cs : List Node)
    (h : n.children = some cs) :
    collapseChildren n = n.setChildren (some (cs.map (fun c => c.setCollapsed true))) := by
  rw [collapseChildren, h]

theorem dedupChildren_singleton (cache : List (String × Node)) (c : Node)
    (h : jsonFileExists cache c.name = false) :
    dedupChildren cache [c] = [c] := by
  simp [dedupChildren, List.filter, h]

theorem truncateChildren_singleton (anc : List String) (c : Node) :
    truncateChildren anc [c] = [c] := by
  rw [truncateChildren_eq_take]
  split <;> rfl

theorem generateSkillTreeFuel_error (f : Nat) (name : String) (anc : List String) (st : St)
    (msg : String) (rest : List (Except String Node))
    (h1 : cacheLookup st.cache (sanitizeTopicName name) = none)
    (h2 : st.treeReplies = .error msg :: rest) :
    generateSkillTreeFuel f name anc st =
      (degradedNode name msg, { st with treeReplies := rest, calls := st.calls + 1 }) := by
  cases f <;> simp only [generateSkillTreeFuel] <;>
    exact genCore_error _ _ _ _ _ _ h1 h2

theorem backfillPair_not_missing (skillName : String) (anc : List String) (n : Node)
    (st : St) (h : contentMissing n = false) :
    backfillPair skillName anc n st = (n, st) := by
  simp [backfillPair, h]

theorem backfillPersist_not_missing (skillName : String) (anc : List String) (n : Node)
    (st : St) (h : contentMissing n = false) :
    backfillPersist skillName anc n st = (n, st) := by
  simp [backfillPersist, h]

theorem buildChildrenSeq_cons (bf : Builder) (anc : List String) (c : Node) (cs : List Node)
    (st : St) :
    buildChildrenSeq bf anc (c :: cs) st =
      ((bf c.name anc st).1.setCollapsed true ::
        (buildChildrenSeq bf anc cs (bf c.name anc st).2).1,
       (buildChildrenSeq bf anc cs (bf c.name anc st).2).2) := rfl

theorem missFilterStep_cons (anc : List String) (nst : Node × St) (c : Node) (cs : List Node)
    (hch : nst.1.children = some (c :: cs)) :
    missFilterStep anc nst =
      nst.1.setChildren (some (truncateChildren anc (dedupChildren nst.2.cache (c :: cs)))) := by
  simp only [missFilterStep, hch]

theorem missChildrenStep_some_cons (bf : Builder) (anc : List String) (d : Node) (st₂ : St)
    (c : Node) (cs : List Node) (hch : d.children = some (c :: cs)) :
    missChildrenStep (some bf) anc d st₂ =
      (d.setChildren (some (buildChildrenSeq bf (anc ++ [d.name]) (c :: cs) st₂).1),
       (buildChildrenSeq bf (anc ++ [d.name]) (c :: cs) st₂).2) := by
  simp only [missChildrenStep, hch]

theorem hydrateStep_some_nonstub (bf : Builder) (skillName : String) (anc : List String)
    (nst : Node × St) (c₀ : Node) (cs : List Node)
    (hch : nst.1.children = some (c₀ :: cs))
    (hpp : (c₀.practiceProblems).isNone = false) :
    hydrateStep (some bf) skillName anc nst = nst := by
  simp only [hydrateStep, hch, hpp, Bool.false_eq_true, if_false]

theorem genHit_none_served (skillName : String) (anc : List String) (v : Node) (st : St)
    (hcm : contentMissing v = false) :
    genHit none skillName anc v st = (collapseChildren v, st) := by
  simp only [genHit, backfillPersist_not_missing _ _ _ _ hcm, hydrateStep]

theorem genHit_some_nonstub_served (bf : Builder) (skillName : String) (anc : List String)
    (v : Node) (st : St) (c₀ : Node) (cs : List Node)
    (hcm : contentMissing v = false) (hch : v.children = some (c₀ :: cs))
    (hpp : (c₀.practiceProblems).isNone = false) :
    genHit (some bf) skillName anc v st = (collapseChildren v, st) := by
  have h := hydrateStep_some_nonstub bf skillName anc (v, st) c₀ cs (by simpa using hch) hpp
  simp only [genHit, backfillPersist_not_missing _ _ _ _ hcm, h]

theorem genMiss_one_child (bf : Builder) (skillName : String) (anc : List String)
    (pd c : Node) (st₁ : St)
    (hcm : contentMissing pd = false)
    (hch : pd.children = some [c])
    (hnc : jsonFileExists st₁.cache c.name = false) :
    genMiss (some bf) skillName anc pd st₁ =
      (pd.setChildren (some [(bf c.name (anc ++ [pd.name]) st₁).1.setCollapsed true]),
       cacheStore (bf c.name (anc ++ [pd.name]) st₁).2 (sanitizeTopicName skillName)
         (pd.setChildren
           (some [(bf c.name (anc ++ [pd.name]) st₁).1.setCollapsed true]))) := by
  have hmb : backfillPair skillName anc pd st₁ = (pd, st₁) :=
    backfillPair_not_missing _ _ _ _ hcm
  have hfs : missFilterStep anc (pd, st₁) = pd.setChildren (some [c]) := by
    rw [missFilterStep_cons anc (pd, st₁) c [] (by simpa using hch)]
    rw [show (pd, st₁).2.cache = st₁.cache from rfl,
      dedupChildren_singleton _ _ hnc, truncateChildren_singleton]
  have hcs : missChildrenStep (some bf) anc (pd.setChildren (some [c])) st₁ =
      ((pd.setChildren (some [c])).setChildren
        (some [(bf c.name (anc ++ [pd.name]) st₁).1.setCollapsed true]),
       (bf c.name (anc ++ [pd.name]) st₁).2) := by
    rw [missChildrenStep_some_cons bf anc _ st₁ c [] (by simp)]
    simp only [Node.name_setChildren, buildChildrenSeq_cons, buildChildrenSeq]
  simp only [genMiss, hmb, hfs, hcs, Node.setChildren_setChildren]

/-- C10: when a cache-miss build of a parent with depth < maxDepth recurses
into a child whose own synthesis fails, the degraded child node (collapsed,
with Error practice content and empty videoTutorials) is persisted inside
the parent's cache entry as one of its children, no cache entry is created
under the child's own key, and a later build of the parent is a pure cache
hit that returns the same node — serving the error content as a hydrated,
non-stub child — without changing the state at all. -/
theorem degraded_child_persisted_in_parent (topic : String) (anc : List String)
    (depth maxDepth : Nat) (st : St) (pd c : Node) (msg : String)
    (rest : List (Except String Node))
    (hd : depth < maxDepth)
    (hmiss : cacheLookup st.cache (sanitizeTopicName topic) = none)
    (htr : st.treeReplies = .ok pd :: .error msg :: rest)
    (hcm : contentMissing pd = false)
    (hch : pd.children = some [c])
    (hnc : jsonFileExists st.cache c.name = false)
    (hkeyne : sanitizeTopicName c.name ≠ sanitizeTopicName topic) :
    (generateSkillTree_Gemini topic anc depth maxDepth st).1.children =
      some [(degradedNode c.name msg).setCollapsed true] ∧
    cacheLookup (generateSkillTree_Gemini topic anc depth maxDepth st).2.cache
        (sanitizeTopicName topic) =
      some (generateSkillTree_Gemini topic anc depth maxDepth st).1 ∧
    cacheLookup (generateSkillTree_Gemini topic anc depth maxDepth st).2.cache
        (sanitizeTopicName c.name) = none ∧
    generateSkillTree_Gemini topic anc depth maxDepth
        (generateSkillTree_Gemini topic anc depth maxDepth st).2 =
      ((generateSkillTree_Gemini topic anc depth maxDepth st).1,
       (generateSkillTree_Gemini topic anc depth maxDepth st).2) := by
  obtain ⟨f, hf⟩ : ∃ f, maxDepth - depth = f + 1 := ⟨maxDepth - depth - 1, by omega⟩
  have hclnone : cacheLookup st.cache (sanitizeTopicName c.name) = none := by
    rw [jsonFileExists] at hnc
    cases hx : cacheLookup st.cache (sanitizeTopicName c.name) with
    | none => rfl
    | some v => rw [hx] at hnc; simp at hnc
  have hchild : generateSkillTreeFuel f c.name (anc ++ [pd.name])
      { st with treeReplies := .error msg :: rest, calls := st.calls + 1 } =
      (degradedNode c.name msg,
       { st with treeReplies := rest, calls := st.calls + 1 + 1 }) :=
    generateSkillTreeFuel_error f _ _ _ msg rest hclnone rfl
  have hnc₁ : jsonFileExists
      ({ st with treeReplies := .error msg :: rest, calls := st.calls + 1 } : St).cache
      c.name = false := hnc
  have hrun : generateSkillTree_Gemini topic anc depth maxDepth st =
      (pd.setChildren (some [(degradedNode c.name msg).setCollapsed true]),
       cacheStore { st with treeReplies := rest, calls := st.calls + 1 + 1 }
         (sanitizeTopicName topic)
         (pd.setChildren (some [(degradedNode c.name msg).setCollapsed true]))) := by
    rw [generateSkillTree_Gemini, hf]
    simp only [generateSkillTreeFuel, genCore, hmiss, popTreeReply, htr]
    rw [genMiss_one_child _ topic anc pd c _ hcm hch hnc₁]
    simp only [hchild]
  have hN :
      (pd.setChildren (some [(degradedNode c.name msg).setCollapsed true])).children =
        some [(degradedNode c.name msg).setCollapsed true] := by simp
  refine ⟨by rw [hrun]; exact hN, ?_, ?_, ?_⟩
  · rw [hrun]
    simp [cacheStore, cacheLookup]
  · rw [hrun]
    simp only [cacheStore, cacheLookup]
    rw [if_neg (fun hh => hkeyne hh.symm)]
    exact hclnone
  · have hlook : cacheLookup (generateSkillTree_Gemini topic anc depth maxDepth st).2.cache
        (sanitizeTopicName topic) =
        some (generateSkillTree_Gemini topic anc depth maxDepth st).1 := by
      rw [hrun]; simp [cacheStore, cacheLookup]
    have hcm₂ : contentMissing (generateSkillTree_Gemini topic anc depth maxDepth st).1
        = false := by
      rw [hrun]
      show contentMissing (pd.setChildren _) = false
      rw [contentMissing, Node.practiceProblems_setChildren, Node.videoTutorials_setChildren,
        ← contentMissing]
      exact hcm
    have hch₂ : (generateSkillTree_Gemini topic anc depth maxDepth st).1.children =
        some ((degradedNode c.name msg).setCollapsed true :: []) := by
      rw [hrun]; exact hN
    have hpp₂ : (((degradedNode c.name msg).setCollapsed true).practiceProblems).isNone
        = false := rfl
    have hcoll : collapseChildren (generateSkillTree_Gemini topic anc depth maxDepth st).1 =
        (generateSkillTree_Gemini topic anc depth maxDepth st).1 := by
      rw [collapseChildren_of_children_some _ _ hch₂]
      rw [hrun]
      simp [Node.setChildren_setChildren, Node.setCollapsed_setCollapsed]
    conv =>
      lhs
      rw [generateSkillTree_Gemini, hf]
    simp only [generateSkillTreeFuel, genCore, hlook]
    rw [genHit_some_nonstub_served _ topic anc _ _ _ [] hcm₂ hch₂ hpp₂, hcoll]

/-- The failing stub child used to exercise claim C10. -/
def cC10 : Node := .mk "Barry" none none none none none

/-- A parent reply with full content and one stub child, for claim C10. -/
def pdC10 : Node :=
  .mk "Flash" none (some [cC10]) (some [{ q := "q", s := "s" }])
    (some [{ title := "t", url := "u" }]) none

/-- Reply streams for claim C10: the parent parses, the child's call fails. -/
def stC10 : St :=
  { cache := [], contentReplies := [], treeReplies := [.ok pdC10, .error "boom"], calls := 0 }

theorem degraded_child_persisted_in_parent_witness :
    0 < 1 ∧
    cacheLookup stC10.cache (sanitizeTopicName "Flash") = none ∧
    stC10.treeReplies = .ok pdC10 :: .error "boom" :: [] ∧
    contentMissing pdC10 = false ∧
    pdC10.children = some [cC10] ∧
    jsonFileExists stC10.cache cC10.name = false ∧
    sanitizeTopicName cC10.name ≠ sanitizeTopicName "Flash" ∧
    ((generateSkillTree_Gemini "Flash" [] 0 1 stC10).1.children =
        some [(degradedNode cC10.name "boom").setCollapsed true] ∧
     cacheLookup (generateSkillTree_Gemini "Flash" [] 0 1 stC10).2.cache
         (sanitizeTopicName "Flash") =
       some (generateSkillTree_Gemini "Flash" [] 0 1 stC10).1 ∧
     cacheLookup (generateSkillTree_Gemini "Flash" [] 0 1 stC10).2.cache
         (sanitizeTopicName cC10.name) = none ∧
     generateSkillTree_Gemini "Flash" [] 0 1 (generateSkillTree_Gemini "Flash" [] 0 1 stC10).2 =
       ((generateSkillTree_Gemini "Flash" [] 0 1 stC10).1,
        (generateSkillTree_Gemini "Flash" [] 0 1 stC10).2)) :=
  ⟨by decide, rfl, rfl, rfl, rfl, rfl, by decide,
   degraded_child_persisted_in_parent "Flash" [] 0 1 stC10 pdC10 cC10 "boom" []
     (by decide) rfl rfl rfl rfl rfl (by decide)⟩

-- ### Content-pair predicates and the recursive node checker

/-- Both content lists present and non-empty. -/
def bothNonEmpty (n : Node) : Bool :=
  !missingList n.practiceProblems && !missingList n.videoTutorials

/-- Absent key or present-and-empty list: the ways a content field can be
empty on a node. -/
def isEmptyish {α : Type} : Option (List α) → Bool
  | none => true
  | some [] => true
  | some (_ :: _) => false

/-- Both content fields empty (absent or empty list). -/
def bothEmptyish (n : Node) : Bool :=
  isEmptyish n.practiceProblems && isEmptyish n.videoTutorials

/-- Both content fields present and both empty lists — the exact result of a
failed backfill merge. -/
def bothSomeEmpty (n : Node) : Bool :=
  match n.practiceProblems, n.videoTutorials with
  | some [], some [] => true
  | _, _ => false

/-- The degraded-content shape of the catch block: a single practice item
with question "Error", and an empty videoTutorials list. -/
def errorContent (n : Node) : Bool :=
  match n.practiceProblems, n.videoTutorials with
  | some [item], some [] => item.q == "Error"
  | _, _ => false

/-- The content pair of one node is coherent: both non-empty, both empty, or
the degraded Error shape. -/
def pairOk (n : Node) : Bool :=
  bothNonEmpty n || bothEmptyish n || errorContent n

/-- The literal pair invariant claimed by the specification: both
present-and-nonempty or both empty, with no Error escape hatch. -/
def pairStrict (n : Node) : Bool :=
  bothNonEmpty n || bothEmptyish n

mutual
/-- Does p hold of this node and, recursively, of every node below it? -/
def nodeOkWith (p : Node → Bool) : Node → Bool
  | .mk nm d ch pp vt co =>
    p (.mk nm d ch pp vt co) &&
    (match ch with
     | some cs => listOkWith p cs
     | none => true)
def listOkWith (p : Node → Bool) : List Node → Bool
  | [] => true
  | c :: cs => nodeOkWith p c && listOkWith p cs
end

/-- The recursive check on an optional children list. -/
def childrenOkWith (p : Node → Bool) : Option (List Node) → Bool
  | some cs => listOkWith p cs
  | none => true

theorem nodeOkWith_eq (p : Node → Bool) (n : Node) :
    nodeOkWith p n = (p n && childrenOkWith p n.children) := by
  cases n with
  | mk nm d ch pp vt co => cases ch <;> rfl

theorem listOkWith_eq_all (p : Node → Bool) (cs : List Node) :
    listOkWith p cs = cs.all (fun c => nodeOkWith p c) := by
  induction cs with
  | nil => rfl
  | cons c cs ih => rw [listOkWith, ih]; rfl

/-- A model reply to the content prompt follows the documented contract: an
error, or an object carrying the pair together — both non-empty (the normal
answer) or both empty. -/
def contentReplyWF : Except String RawContent → Bool
  | .error _ => true
  | .ok c =>
    match c.practiceProblems, c.videoTutorials with
    | some (_ :: _), some (_ :: _) => true
    | some [], some [] => true
    | _, _ => false

/-- The shape contentReplyWF demands of a successful reply, as a predicate on
the returned object. -/
def contentResultOk (c : RawContent) : Bool :=
  match c.practiceProblems, c.videoTutorials with
  | some (_ :: _), some (_ :: _) => true
  | some [], some [] => true
  | _, _ => false

/-- A pure stub child as the tree prompt's schema requests: only a name, no
children / practiceProblems / videoTutorials keys. -/
def stubNode (c : Node) : Bool :=
  (c.children).isNone && (c.practiceProblems).isNone && (c.videoTutorials).isNone

/-- A model reply to the tree prompt follows the documented contract: an
error, or a node whose children (if any) are pure stubs. -/
def treeReplyWF : Except String Node → Bool
  | .error _ => true
  | .ok d => (d.childrenList).all stubNode

/-- Both reply streams follow the documented contracts. -/
def RepliesOk (st : St) : Prop :=
  (∀ r ∈ st.contentReplies, contentReplyWF r = true) ∧
  (∀ r ∈ st.treeReplies, treeReplyWF r = true)

/-- The full state invariant of the content-pair claim: every cache entry
recursively satisfies the coherent-pair predicate, and the replies follow
the contracts. -/
def StOk (st : St) : Prop :=
  (∀ kv ∈ st.cache, nodeOkWith pairOk kv.2 = true) ∧ RepliesOk st

-- ### Basic facts feeding the content-pair invariant

theorem cacheLookup_mem (cache : List (String × Node)) (key : String) (v : Node)
    (h : cacheLookup cache key = some v) : (key, v) ∈ cache := by
  induction cache with
  | nil => simp [cacheLookup] at h
  | cons kv rest ih =>
    obtain ⟨k, w⟩ := kv
    rw [cacheLookup] at h
    by_cases hk : k = key
    · rw [if_pos hk] at h
      subst hk
      injection h with h
      subst h
      exact List.mem_cons_self _ _
    · rw [if_neg hk] at h
      exact List.mem_cons_of_mem _ (ih h)

theorem bothNonEmpty_of_not_missing (n : Node) (h : contentMissing n = false) :
    bothNonEmpty n = true := by
  rw [contentMissing, Bool.or_eq_false_iff] at h
  rw [bothNonEmpty, h.1, h.2]
  rfl

theorem pairOk_of_pair (n : Node) (h : (bothNonEmpty n || bothSomeEmpty n) = true) :
    pairOk n = true := by
  rw [Bool.or_eq_true] at h
  rcases h with h | h
  · simp [pairOk, h]
  · cases n with
    | mk nm d ch pp vt co =>
      rw [bothSomeEmpty] at h
      rw [pairOk, bothEmptyish]
      cases pp with
      | none => cases vt <;> simp at h
      | some l =>
        cases vt with
        | none => cases l <;> simp at h
        | some m =>
          cases l with
          | nil =>
            cases m with
            | nil => rfl
            | cons y ys => simp at h
          | cons x xs => simp at h

theorem contentReplyWF_ok (c : RawContent) :
    contentReplyWF (.ok c) = contentResultOk c := rfl

theorem generateSkillContent_spec (s : String) (a : List String) (st : St)
    (h : ∀ r ∈ st.contentReplies, contentReplyWF r = true) :
    contentResultOk (generateSkillContent_Gemini s a st).1 = true ∧
    (generateSkillContent_Gemini s a st).2.cache = st.cache ∧
    (generateSkillContent_Gemini s a st).2.treeReplies = st.treeReplies ∧
    (∀ r ∈ (generateSkillContent_Gemini s a st).2.contentReplies, contentReplyWF r = true) := by
  obtain ⟨cache, creplies, treplies, calls⟩ := st
  cases creplies with
  | nil => exact ⟨rfl, rfl, rfl, fun r hr => absurd hr (List.not_mem_nil r)⟩
  | cons r rest =>
    have hr : contentReplyWF r = true := h r (List.mem_cons_self _ _)
    have hrest : ∀ x ∈ rest, contentReplyWF x = true :=
      fun x hx => h x (List.mem_cons_of_mem _ hx)
    cases r with
    | error e => exact ⟨rfl, rfl, rfl, hrest⟩
    | ok c => exact ⟨hr, rfl, rfl, hrest⟩

theorem mergeContent_pair (n : Node) (c : RawContent) (h : contentResultOk c = true) :
    (bothNonEmpty (mergeContent n c) || bothSomeEmpty (mergeContent n c)) = true := by
  rw [contentResultOk] at h
  cases n with
  | mk nm d ch pp vt co =>
    cases hpp : c.practiceProblems with
    | none =>
      rw [hpp] at h
      cases c.videoTutorials <;> simp at h
    | some l =>
      cases hvt : c.videoTutorials with
      | none =>
        rw [hpp, hvt] at h
        cases l <;> simp at h
      | some m =>
        rw [hpp, hvt] at h
        cases l with
        | nil =>
          cases m with
          | nil =>
            simp only [mergeContent, hpp, hvt]
            rw [Bool.or_eq_true]
            right
            rfl
          | cons y ys => simp at h
        | cons x xs =>
          cases m with
          | nil => simp at h
          | cons y ys =>
            simp only [mergeContent, hpp, hvt]
            rw [Bool.or_eq_true]
            left
            rfl

theorem backfillPair_spec (s : String) (a : List String) (d : Node) (st : St)
    (h : ∀ r ∈ st.contentReplies, contentReplyWF r = true) :
    (bothNonEmpty (backfillPair s a d st).1 || bothSomeEmpty (backfillPair s a d st).1) = true ∧
    (backfillPair s a d st).1.children = d.children ∧
    (backfillPair s a d st).1.name = d.name ∧
    (backfillPair s a d st).2.cache = st.cache ∧
    (backfillPair s a d st).2.treeReplies = st.treeReplies ∧
    (∀ r ∈ (backfillPair s a d st).2.contentReplies, contentReplyWF r = true) := by
  cases hcm : contentMissing d with
  | false =>
    rw [backfillPair_not_missing _ _ _ _ hcm]
    exact ⟨by rw [Bool.or_eq_true]; exact Or.inl (bothNonEmpty_of_not_missing d hcm),
      rfl, rfl, rfl, rfl, h⟩
  | true =>
    obtain ⟨h1, h2, h3, h4⟩ := generateSkillContent_spec s a st h
    rw [backfillPair]
    simp only [hcm, if_true]
    exact ⟨mergeContent_pair _ _ h1, by simp, by simp, h2, h3, h4⟩

theorem backfillPersist_spec (s : String) (a : List String) (v : Node) (st : St)
    (h : ∀ r ∈ st.contentReplies, contentReplyWF r = true) :
    (bothNonEmpty (backfillPersist s a v st).1 || bothSomeEmpty (backfillPersist s a v st).1)
        = true ∧
    (backfillPersist s a v st).1.children = v.children ∧
    (backfillPersist s a v st).1.name = v.name ∧
    (backfillPersist s a v st).2.treeReplies = st.treeReplies ∧
    (∀ r ∈ (backfillPersist s a v st).2.contentReplies, contentReplyWF r = true) ∧
    ((backfillPersist s a v st).2.cache = st.cache ∨
      (backfillPersist s a v st).2.cache =
        (sanitizeTopicName s, (backfillPersist s a v st).1) :: st.cache) := by
  cases hcm : contentMissing v with
  | false =>
    rw [backfillPersist_not_missing _ _ _ _ hcm]
    exact ⟨by rw [Bool.or_eq_true]; exact Or.inl (bothNonEmpty_of_not_missing v hcm),
      rfl, rfl, rfl, h, Or.inl rfl⟩
  | true =>
    obtain ⟨h1, h2, h3, h4⟩ := generateSkillContent_spec s a st h
    rw [backfillPersist]
    simp only [hcm, if_true]
    refine ⟨mergeContent_pair _ _ h1, by simp, by simp, h3, h4, Or.inr ?_⟩
    simp [cacheStore, h2]

theorem pairOk_setCollapsed (n : Node) (b : Bool) : pairOk (n.setCollapsed b) = pairOk n := by
  cases n; rfl

theorem nodeOkWith_pairOk_setCollapsed (n : Node) (b : Bool) :
    nodeOkWith pairOk (n.setCollapsed b) = nodeOkWith pairOk n := by
  cases n with
  | mk nm d ch pp vt co => cases ch <;> rfl

theorem listOkWith_pairOk_map_setCollapsed (cs : List Node) :
    listOkWith pairOk (cs.map (fun c => c.setCollapsed true)) = listOkWith pairOk cs := by
  induction cs with
  | nil => rfl
  | cons c cs ih => rw [List.map_cons, listOkWith, listOkWith, ih,
      nodeOkWith_pairOk_setCollapsed]

theorem pairOk_collapseChildren (n : Node) : pairOk (collapseChildren n) = pairOk n := by
  cases n with
  | mk nm d ch pp vt co => cases ch <;> rfl

theorem childrenOkWith_map_setCollapsed (ch : Option (List Node)) :
    childrenOkWith pairOk (ch.map (fun cs => cs.map (fun c => c.setCollapsed true))) =
      childrenOkWith pairOk ch := by
  cases ch with
  | none => rfl
  | some cs => exact listOkWith_pairOk_map_setCollapsed cs

theorem nodeOkWith_pairOk_collapseChildren (n : Node) (h : nodeOkWith pairOk n = true) :
    nodeOkWith pairOk (collapseChildren n) = true := by
  rw [nodeOkWith_eq] at h ⊢
  rw [pairOk_collapseChildren, collapseChildren_children, childrenOkWith_map_setCollapsed]
  exact h

theorem listOkWith_mem (p : Node → Bool) (cs : List Node) (h : listOkWith p cs = true)
    (x : Node) (hx : x ∈ cs) : nodeOkWith p x = true := by
  rw [listOkWith_eq_all, List.all_eq_true] at h
  exact h x hx

theorem listOkWith_of_mem (p : Node → Bool) (cs : List Node)
    (h : ∀ x ∈ cs, nodeOkWith p x = true) : listOkWith p cs = true := by
  rw [listOkWith_eq_all, List.all_eq_true]
  exact h

theorem nodeOkWith_pairOk_of_stub (c : Node) (h : stubNode c = true) :
    nodeOkWith pairOk c = true := by
  cases c with
  | mk nm d ch pp vt co =>
    rw [stubNode] at h
    simp only [Node.children_mk, Node.practiceProblems_mk, Node.videoTutorials_mk,
      Bool.and_eq_true, Option.isNone_iff_eq_none] at h
    obtain ⟨⟨h1, h2⟩, h3⟩ := h
    subst h1; subst h2; subst h3
    rfl

theorem nodeOkWith_pairOk_degraded (s msg : String) :
    nodeOkWith pairOk (degradedNode s msg) = true := rfl

theorem pairOk_setChildren (n : Node) (ch : Option (List Node)) :
    pairOk (n.setChildren ch) = pairOk n := by
  cases n; rfl

theorem StOk_cacheStore (st : St) (key : String) (n : Node) (hst : StOk st)
    (hn : nodeOkWith pairOk n = true) : StOk (cacheStore st key n) := by
  refine ⟨?_, hst.2.1, hst.2.2⟩
  intro kv hkv
  rcases List.mem_cons.mp hkv with h | h
  · rw [h]; exact hn
  · exact hst.1 kv h

theorem truncate_dedup_subset (cache : List (String × Node)) (a : List String)
    (l : List Node) :
    ∀ x ∈ truncateChildren a (dedupChildren cache l), x ∈ l := by
  intro x hx
  have h1 : (truncateChildren a (dedupChildren cache l)).Sublist (dedupChildren cache l) := by
    rw [truncateChildren_eq_take]; exact List.take_sublist _ _
  exact (h1.trans (List.filter_sublist l)).subset hx

theorem buildChildrenSeq_spec (bf : Builder) (P : St → Prop) (Q : Node → Bool)
    (hbf : ∀ nm a st, P st → Q (bf nm a st).1 = true ∧ P (bf nm a st).2) :
    ∀ (stubs : List Node) (a : List String) (st : St), P st →
      (∀ x ∈ (buildChildrenSeq bf a stubs st).1,
        ∃ y, Q y = true ∧ x = y.setCollapsed true) ∧
      P (buildChildrenSeq bf a stubs st).2 := by
  intro stubs
  induction stubs with
  | nil =>
    intro a st hP
    exact ⟨fun x hx => absurd hx (List.not_mem_nil x), hP⟩
  | cons c cs ih =>
    intro a st hP
    obtain ⟨h1, h2⟩ := hbf c.name a st hP
    obtain ⟨h3, h4⟩ := ih a (bf c.name a st).2 h2
    refine ⟨?_, h4⟩
    intro x hx
    rcases List.mem_cons.mp hx with h | h
    · exact ⟨(bf c.name a st).1, h1, h⟩
    · exact h3 x h

/-- The builder contract used through the recursion: on an invariant-holding
state, the built node recursively satisfies the coherent-pair predicate and
the invariant is preserved. -/
def BuilderOk (bf : Builder) : Prop :=
  ∀ nm a st, StOk st → nodeOkWith pairOk (bf nm a st).1 = true ∧ StOk (bf nm a st).2

theorem missChildrenStep_nodeOk (recurse : Option Builder)
    (hbf : ∀ bf, recurse = some bf → BuilderOk bf)
    (a : List String) (d : Node) (st : St) (hst : StOk st)
    (hd : nodeOkWith pairOk d = true) :
    nodeOkWith pairOk (missChildrenStep recurse a d st).1 = true ∧
    StOk (missChildrenStep recurse a d st).2 := by
  cases recurse with
  | none =>
    cases hch : d.children with
    | none => rw [missChildrenStep, hch]; exact ⟨hd, hst⟩
    | some cs =>
      cases cs with
      | nil => rw [missChildrenStep, hch]; exact ⟨hd, hst⟩
      | cons c cs' =>
        rw [missChildrenStep, hch]
        exact ⟨nodeOkWith_pairOk_collapseChildren d hd, hst⟩
  | some bf =>
    cases hch : d.children with
    | none => rw [missChildrenStep, hch]; exact ⟨hd, hst⟩
    | some cs =>
      cases cs with
      | nil => rw [missChildrenStep, hch]; exact ⟨hd, hst⟩
      | cons c cs' =>
        rw [missChildrenStep, hch]
        obtain ⟨hall, hP⟩ := buildChildrenSeq_spec bf StOk (nodeOkWith pairOk)
          (hbf bf rfl) (c :: cs') (a ++ [d.name]) st hst
        refine ⟨?_, hP⟩
        rw [nodeOkWith_eq, Bool.and_eq_true, pairOk_setChildren]
        constructor
        · rw [nodeOkWith_eq, Bool.and_eq_true] at hd; exact hd.1
        · rw [Node.children_setChildren]
          refine listOkWith_of_mem _ _ ?_
          intro x hx
          obtain ⟨y, hy, hxy⟩ := hall x hx
          rw [hxy, nodeOkWith_pairOk_setCollapsed]
          exact hy

theorem missFilterStep_nodeOk (a : List String) (m1 : Node) (m2 : St)
    (hpair : pairOk m1 = true)
    (hstubs : ∀ x ∈ m1.childrenList, stubNode x = true) :
    nodeOkWith pairOk (missFilterStep a (m1, m2)) = true := by
  cases hch : m1.children with
  | none =>
    simp only [missFilterStep, hch]
    rw [nodeOkWith_eq, hch, Bool.and_eq_true]
    exact ⟨hpair, rfl⟩
  | some cs =>
    cases cs with
    | nil =>
      simp only [missFilterStep, hch]
      rw [nodeOkWith_eq, hch, Bool.and_eq_true]
      exact ⟨hpair, rfl⟩
    | cons c cs' =>
      simp only [missFilterStep, hch]
      rw [nodeOkWith_eq, Bool.and_eq_true, pairOk_setChildren, Node.children_setChildren]
      refine ⟨hpair, listOkWith_of_mem _ _ ?_⟩
      intro x hx
      refine nodeOkWith_pairOk_of_stub x (hstubs x ?_)
      rw [Node.childrenList, hch]
      exact truncate_dedup_subset m2.cache a (c :: cs') x hx

theorem genMiss_nodeOk (recurse : Option Builder)
    (hbf : ∀ bf, recurse = some bf → BuilderOk bf)
    (s : String) (a : List String) (d : Node) (st : St)
    (hst : StOk st) (hd : (d.childrenList).all stubNode = true) :
    nodeOkWith pairOk (genMiss recurse s a d st).1 = true ∧
    StOk (genMiss recurse s a d st).2 := by
  obtain ⟨hpair, hch, hnm, hcache, htrep, hcont⟩ := backfillPair_spec s a d st hst.2.1
  have hstOk2 : StOk (backfillPair s a d st).2 := by
    refine ⟨?_, hcont, ?_⟩
    · rw [hcache]; exact hst.1
    · rw [htrep]; exact hst.2.2
  have hstubs : ∀ x ∈ (backfillPair s a d st).1.childrenList, stubNode x = true := by
    intro x hx
    rw [Node.childrenList, hch] at hx
    rw [List.all_eq_true] at hd
    exact hd x (by rw [Node.childrenList]; exact hx)
  have hd2 : nodeOkWith pairOk (missFilterStep a (backfillPair s a d st)) = true :=
    missFilterStep_nodeOk a (backfillPair s a d st).1 (backfillPair s a d st).2
      (pairOk_of_pair _ hpair) hstubs
  obtain ⟨hmr1, hmr2⟩ := missChildrenStep_nodeOk recurse hbf a
    (missFilterStep a (backfillPair s a d st)) (backfillPair s a d st).2 hstOk2 hd2
  exact ⟨hmr1, StOk_cacheStore _ _ _ hmr2 hmr1⟩

theorem hydrateStep_nodeOk (recurse : Option Builder)
    (hbf : ∀ bf, recurse = some bf → BuilderOk bf)
    (s : String) (a : List String) (nst : Node × St)
    (hst : StOk nst.2) (hn : nodeOkWith pairOk nst.1 = true) :
    nodeOkWith pairOk (hydrateStep recurse s a nst).1 = true ∧
    StOk (hydrateStep recurse s a nst).2 := by
  cases recurse with
  | none => exact ⟨hn, hst⟩
  | some bf =>
    cases hch : nst.1.children with
    | none => simp only [hydrateStep, hch]; exact ⟨hn, hst⟩
    | some cs =>
      cases cs with
      | nil => simp only [hydrateStep, hch]; exact ⟨hn, hst⟩
      | cons c₀ cs' =>
        cases hpp : (c₀.practiceProblems).isNone with
        | false =>
          simp only [hydrateStep, hch, hpp, Bool.false_eq_true, if_false]
          exact ⟨hn, hst⟩
        | true =>
          simp only [hydrateStep, hch, hpp, if_true]
          obtain ⟨hall, hP⟩ := buildChildrenSeq_spec bf StOk (nodeOkWith pairOk)
            (hbf bf rfl) (c₀ :: cs') (a ++ [nst.1.name]) nst.2 hst
          have hhydr : nodeOkWith pairOk
              (nst.1.setChildren
                (some (buildChildrenSeq bf (a ++ [nst.1.name]) (c₀ :: cs') nst.2).1)) = true := by
            rw [nodeOkWith_eq, Bool.and_eq_true, pairOk_setChildren, Node.children_setChildren]
            constructor
            · rw [nodeOkWith_eq, Bool.and_eq_true] at hn; exact hn.1
            · refine listOkWith_of_mem _ _ ?_
              intro x hx
              obtain ⟨y, hy, hxy⟩ := hall x hx
              rw [hxy, nodeOkWith_pairOk_setCollapsed]
              exact hy
          exact ⟨hhydr, StOk_cacheStore _ _ _ hP hhydr⟩

theorem genHit_nodeOk (recurse : Option Builder)
    (hbf : ∀ bf, recurse = some bf → BuilderOk bf)
    (s : String) (a : List String) (v : Node) (st : St)
    (hst : StOk st) (hv : nodeOkWith pairOk v = true) :
    nodeOkWith pairOk (genHit recurse s a v st).1 = true ∧
    StOk (genHit recurse s a v st).2 := by
  obtain ⟨hpair, hch, hnm, htrep, hcont, hcases⟩ := backfillPersist_spec s a v st hst.2.1
  have hv' := hv
  rw [nodeOkWith_eq, Bool.and_eq_true] at hv'
  have hb1 : nodeOkWith pairOk (backfillPersist s a v st).1 = true := by
    rw [nodeOkWith_eq, Bool.and_eq_true, hch]
    exact ⟨pairOk_of_pair _ hpair, hv'.2⟩
  have hstb : StOk (backfillPersist s a v st).2 := by
    refine ⟨?_, hcont, ?_⟩
    · rcases hcases with h | h
      · rw [h]; exact hst.1
      · rw [h]
        intro kv hkv
        rcases List.mem_cons.mp hkv with hkv | hkv
        · rw [hkv]; exact hb1
        · exact hst.1 kv hkv
    · rw [htrep]; exact hst.2.2
  obtain ⟨hh1, hh2⟩ := hydrateStep_nodeOk recurse hbf s a (backfillPersist s a v st) hstb hb1
  exact ⟨nodeOkWith_pairOk_collapseChildren _ hh1, hh2⟩

theorem genCore_nodeOk (recurse : Option Builder)
    (hbf : ∀ bf, recurse = some bf → BuilderOk bf)
    (s : String) (a : List String) (st : St) (hst : StOk st) :
    nodeOkWith pairOk (genCore recurse s a st).1 = true ∧
    StOk (genCore recurse s a st).2 := by
  obtain ⟨cache, crep, trep, calls⟩ := st
  cases hlk : cacheLookup cache (sanitizeTopicName s) with
  | some v =>
    simp only [genCore, hlk]
    exact genHit_nodeOk recurse hbf s a v _ hst
      (hst.1 (sanitizeTopicName s, v) (cacheLookup_mem _ _ _ hlk))
  | none =>
    cases trep with
    | nil =>
      simp only [genCore, hlk, popTreeReply]
      exact ⟨rfl, hst.1, hst.2.1, hst.2.2⟩
    | cons r rest =>
      have hrest : ∀ x ∈ rest, treeReplyWF x = true :=
        fun x hx => hst.2.2 x (List.mem_cons_of_mem _ hx)
      cases r with
      | error msg =>
        simp only [genCore, hlk, popTreeReply]
        exact ⟨rfl, hst.1, hst.2.1, hrest⟩
      | ok dd =>
        have hdd : (dd.childrenList).all stubNode = true :=
          hst.2.2 (.ok dd) (List.mem_cons_self _ _)
        simp only [genCore, hlk, popTreeReply]
        exact genMiss_nodeOk recurse hbf s a dd _ ⟨hst.1, hst.2.1, hrest⟩ hdd

theorem generateSkillTreeFuel_nodeOk (fuel : Nat) :
    BuilderOk (fun nm a st => generateSkillTreeFuel fuel nm a st) := by
  induction fuel with
  | zero =>
    intro nm a st hst
    exact genCore_nodeOk none (fun bf h => Option.noConfusion h) nm a st hst
  | succ f ih =>
    intro nm a st hst
    exact genCore_nodeOk (some (fun nm' a' s' => generateSkillTreeFuel f nm' a' s'))
      (fun bf h => by injection h with h; rw [← h]; exact ih) nm a st hst

/-- C6 amended: under the documented model-reply contracts and an initial
cache whose entries all satisfy the coherent-pair predicate, every build
returns a node every one of whose sub-nodes has the content pair both
non-empty, both empty/absent, or in the degraded Error shape — and every
cache entry after the build (everything ever persisted) satisfies the same
recursive predicate.  The Error escape is necessary: degraded children are
persisted inside their parent's entry (claim C10), which refutes the
unqualified both-or-neither claim. -/
theorem content_pair_invariant (skillName : String) (anc : List String)
    (depth maxDepth : Nat) (st : St) (hst : StOk st) :
    nodeOkWith pairOk (generateSkillTree_Gemini skillName anc depth maxDepth st).1 = true ∧
    StOk (generateSkillTree_Gemini skillName anc depth maxDepth st).2 :=
  generateSkillTreeFuel_nodeOk (maxDepth - depth) skillName anc st hst

/-- Reply streams for the content-pair claim: a parent with full content and
one stub child whose own synthesis fails. -/
def stC6 : St :=
  { cache := [], contentReplies := [],
    treeReplies := [.ok (.mk "Graphs" none (some [.mk "Cycles" none none none none none])
      (some [{ q := "q", s := "s" }]) (some [{ title := "t", url := "u" }]) none),
      .error "boom"],
    calls := 0 }

/-- C6 counterexample: after this build, the persisted entry for the parent
contains a child whose practiceProblems are non-empty while videoTutorials
is empty — a persisted (not transient) node carrying one of the pair without
the other — so the strict both-or-neither invariant is false on the code. -/
theorem pair_invariant_counterexample :
    ((cacheLookup (generateSkillTree_Gemini "Graphs" [] 0 1 stC6).2.cache
        (sanitizeTopicName "Graphs")).map
      (fun p => p.childrenList.map
        (fun c => (missingList c.practiceProblems, missingList c.videoTutorials)))) =
      some [(false, true)] ∧
    ((cacheLookup (generateSkillTree_Gemini "Graphs" [] 0 1 stC6).2.cache
        (sanitizeTopicName "Graphs")).map (fun p => nodeOkWith pairStrict p)) =
      some false :=
  ⟨rfl, rfl⟩

theorem content_pair_invariant_witness :
    StOk stC6 ∧
    (nodeOkWith pairOk (generateSkillTree_Gemini "Graphs" [] 0 1 stC6).1 = true ∧
     StOk (generateSkillTree_Gemini "Graphs" [] 0 1 stC6).2) :=
  ⟨⟨by decide, by decide, by decide⟩,
   content_pair_invariant "Graphs" [] 0 1 stC6 ⟨by decide, by decide, by decide⟩⟩

-- ### Claim C1: shape of the direct children for maxDepth = 1

/-- A stub child marked collapsed = true: no practiceProblems key, collapsed
set. -/
def stubCollapsed (c : Node) : Bool :=
  (c.practiceProblems).isNone &&
  (match c.collapsed with | some true => true | _ => false)

/-- Every child (if any) of this node is a collapsed stub. -/
def childStubsMarked (v : Node) : Bool := (v.childrenList).all stubCollapsed

/-- The coherent content pair a hydrated node can carry after backfill: both
non-empty, or both present and empty (failed backfill). -/
def mergedPair (n : Node) : Bool := bothNonEmpty n || bothSomeEmpty n

/-- The content-and-grandchildren shape of a direct child built at
maxDepth 1: a coherent pair (or the Error shape), its own children all
collapsed stubs. -/
def childCore (c : Node) : Bool :=
  (mergedPair c || errorContent c) && childStubsMarked c

/-- The full claimed shape of a direct child: childCore plus the child itself
marked collapsed = true. -/
def childShape (c : Node) : Bool :=
  childCore c && (match c.collapsed with | some true => true | _ => false)

/-- What a cache entry written during the children loop looks like: coherent
non-Error pair, all children collapsed stubs. -/
def entryOk1 (v : Node) : Bool := mergedPair v && childStubsMarked v

/-- The cache is the initial cache extended with entries written during this
invocation, each of the claimed persisted shape. -/
def NewEntriesOk (base cur : List (String × Node)) : Prop :=
  ∃ new, cur = new ++ base ∧ ∀ kv ∈ new, entryOk1 kv.2 = true

theorem cacheLookup_append_of_none (a b : List (String × Node)) (k : String)
    (h : cacheLookup a k = none) : cacheLookup (a ++ b) k = cacheLookup b k := by
  induction a with
  | nil => rfl
  | cons kv rest ih =>
    obtain ⟨k', v⟩ := kv
    rw [cacheLookup] at h
    rw [List.cons_append, cacheLookup]
    by_cases hk : k' = k
    · rw [if_pos hk] at h; exact absurd h (by simp)
    · rw [if_neg hk] at h ⊢; exact ih h

theorem cacheLookup_append_split (a b : List (String × Node)) (k : String) (v : Node)
    (h : cacheLookup (a ++ b) k = some v) (hb : cacheLookup b k = none) :
    cacheLookup a k = some v := by
  cases ha : cacheLookup a k with
  | none => rw [cacheLookup_append_of_none a b k ha, hb] at h; exact absurd h (by simp)
  | some w =>
    suffices hs : cacheLookup (a ++ b) k = some w by
      rw [h] at hs; injection hs with hs; rw [hs]
    clear h
    induction a with
    | nil => simp [cacheLookup] at ha
    | cons kv rest ih =>
      obtain ⟨k', u⟩ := kv
      rw [cacheLookup] at ha
      rw [List.cons_append, cacheLookup]
      by_cases hk : k' = k
      · rw [if_pos hk] at ha ⊢; exact ha
      · rw [if_neg hk] at ha ⊢; exact ih ha

theorem NewEntriesOk_lookup (base cur : List (String × Node)) (key : String) (v : Node)
    (h : NewEntriesOk base cur) (hb : cacheLookup base key = none)
    (hl : cacheLookup cur key = some v) : entryOk1 v = true := by
  obtain ⟨new, hcur, hnew⟩ := h
  rw [hcur] at hl
  exact hnew (key, v) (cacheLookup_mem _ _ _ (cacheLookup_append_split new base key v hl hb))

theorem NewEntriesOk_store (base cur : List (String × Node)) (key : String) (n : Node)
    (h : NewEntriesOk base cur) (hn : entryOk1 n = true) :
    NewEntriesOk base ((key, n) :: cur) := by
  obtain ⟨new, hcur, hnew⟩ := h
  refine ⟨(key, n) :: new, by rw [hcur, List.cons_append], ?_⟩
  intro kv hkv
  rcases List.mem_cons.mp hkv with hkv | hkv
  · rw [hkv]; exact hn
  · exact hnew kv hkv

theorem mergedPair_setChildren (n : Node) (ch : Option (List Node)) :
    mergedPair (n.setChildren ch) = mergedPair n := by cases n; rfl

theorem mergedPair_collapseChildren (n : Node) :
    mergedPair (collapseChildren n) = mergedPair n := by
  cases n with
  | mk nm d ch pp vt co => cases ch <;> rfl

theorem errorContent_collapseChildren (n : Node) :
    errorContent (collapseChildren n) = errorContent n := by
  cases n with
  | mk nm d ch pp vt co => cases ch <;> rfl

theorem childStubsMarked_mergeContent (n : Node) (c : RawContent) :
    childStubsMarked (mergeContent n c) = childStubsMarked n := by cases n; rfl

theorem mergedPair_mergeContent (n : Node) (c : RawContent) (h : contentResultOk c = true) :
    mergedPair (mergeContent n c) = true := mergeContent_pair n c h

theorem childrenList_collapseChildren (n : Node) :
    (collapseChildren n).childrenList = n.childrenList.map (fun c => c.setCollapsed true) := by
  cases n with
  | mk nm d ch pp vt co => cases ch <;> rfl

theorem childrenList_setChildren_some (n : Node) (cs : List Node) :
    (n.setChildren (some cs)).childrenList = cs := by cases n; rfl

theorem stubCollapsed_setCollapsed_true (x : Node)
    (h : (x.practiceProblems).isNone = true) :
    stubCollapsed (x.setCollapsed true) = true := by
  cases x with
  | mk nm d ch pp vt co =>
    rw [stubCollapsed]
    simp only [Node.setCollapsed, Node.practiceProblems_mk, Node.collapsed_mk]
    simp only [Node.practiceProblems_mk] at h
    rw [h]
    rfl

theorem childStubsMarked_collapseChildren (n : Node)
    (h : ∀ x ∈ n.childrenList, (x.practiceProblems).isNone = true) :
    childStubsMarked (collapseChildren n) = true := by
  rw [childStubsMarked, childrenList_collapseChildren, List.all_eq_true]
  intro x hx
  obtain ⟨y, hy, hxy⟩ := List.mem_map.mp hx
  rw [← hxy]
  exact stubCollapsed_setCollapsed_true y (h y hy)

theorem childCore_degraded (s msg : String) : childCore (degradedNode s msg) = true := rfl

theorem childStubsMarked_pp (n : Node) (h : childStubsMarked n = true) :
    ∀ x ∈ n.childrenList, (x.practiceProblems).isNone = true := by
  rw [childStubsMarked, List.all_eq_true] at h
  intro x hx
  have hx' := h x hx
  rw [stubCollapsed, Bool.and_eq_true] at hx'
  exact hx'.1

theorem childCore_setCollapsed (y : Node) (b : Bool) :
    childCore (y.setCollapsed b) = childCore y := by
  cases y; rfl

theorem childShape_of_core (y : Node) (h : childCore y = true) :
    childShape (y.setCollapsed true) = true := by
  rw [childShape, childCore_setCollapsed, h]
  cases y with
  | mk nm d ch pp vt co => rfl

theorem mem_dedupChildren_not_cached (cache : List (String × Node)) (cs : List Node)
    (x : Node) (hx : x ∈ dedupChildren cache cs) : jsonFileExists cache x.name = false := by
  have h := (List.mem_filter.mp hx).2
  simpa using h

theorem lookup_none_of_not_exists (cache : List (String × Node)) (topic : String)
    (h : jsonFileExists cache topic = false) :
    cacheLookup cache (sanitizeTopicName topic) = none := by
  rw [jsonFileExists] at h
  cases hx : cacheLookup cache (sanitizeTopicName topic) with
  | none => rfl
  | some v => rw [hx] at h; simp at h

theorem genHit_none_child_spec (base : List (String × Node)) (name : String)
    (a : List String) (v : Node) (st : St)
    (hsplit : NewEntriesOk base st.cache)
    (hrep : RepliesOk st)
    (hv : entryOk1 v = true) :
    childCore (genHit none name a v st).1 = true ∧
    NewEntriesOk base (genHit none name a v st).2.cache ∧
    RepliesOk (genHit none name a v st).2 := by
  rw [entryOk1, Bool.and_eq_true] at hv
  obtain ⟨hvp, hvm⟩ := hv
  obtain ⟨hpair, hch, hnm, htrep, hcont, hcases⟩ := backfillPersist_spec name a v st hrep.1
  have hbm : childStubsMarked (backfillPersist name a v st).1 = true := by
    rw [childStubsMarked, Node.childrenList, hch]
    exact hvm
  have hbe : entryOk1 (backfillPersist name a v st).1 = true := by
    rw [entryOk1, Bool.and_eq_true]
    exact ⟨hpair, hbm⟩
  have hsplit' : NewEntriesOk base (backfillPersist name a v st).2.cache := by
    rcases hcases with h | h
    · rw [h]; exact hsplit
    · rw [h]; exact NewEntriesOk_store _ _ _ _ hsplit hbe
  have hrep' : RepliesOk (backfillPersist name a v st).2 := ⟨hcont, by rw [htrep]; exact hrep.2⟩
  refine ⟨?_, hsplit', hrep'⟩
  show childCore (collapseChildren (backfillPersist name a v st).1) = true
  rw [childCore, Bool.and_eq_true]
  constructor
  · rw [Bool.or_eq_true]
    left
    rw [mergedPair_collapseChildren]
    exact hpair
  · exact childStubsMarked_collapseChildren _ (childStubsMarked_pp _ hbm)

theorem genMiss_none_child_spec (base : List (String × Node)) (name : String)
    (a : List String) (dd : Node) (st : St)
    (hsplit : NewEntriesOk base st.cache)
    (hrep : RepliesOk st)
    (hdd : (dd.childrenList).all stubNode = true) :
    childCore (genMiss none name a dd st).1 = true ∧
    NewEntriesOk base (genMiss none name a dd st).2.cache ∧
    RepliesOk (genMiss none name a dd st).2 := by
  obtain ⟨hpair, hch, hnm, hcache, htrep, hcont⟩ := backfillPair_spec name a dd st hrep.1
  have hrep' : RepliesOk (backfillPair name a dd st).2 :=
    ⟨hcont, by rw [htrep]; exact hrep.2⟩
  have hsplit' : NewEntriesOk base (backfillPair name a dd st).2.cache := by
    rw [hcache]; exact hsplit
  rw [List.all_eq_true] at hdd
  have hstubs : ∀ x ∈ (backfillPair name a dd st).1.childrenList, stubNode x = true := by
    intro x hx
    rw [Node.childrenList, hch] at hx
    exact hdd x (by rw [Node.childrenList]; exact hx)
  cases hc : (backfillPair name a dd st).1.children with
  | none =>
    have hcore : childCore (backfillPair name a dd st).1 = true := by
      rw [childCore, Bool.and_eq_true]
      refine ⟨by rw [Bool.or_eq_true]; exact Or.inl hpair, ?_⟩
      rw [childStubsMarked, Node.childrenList, hc]
      rfl
    simp only [genMiss, missFilterStep, hc, missChildrenStep]
    exact ⟨hcore, NewEntriesOk_store _ _ _ _ hsplit'
      (by rw [entryOk1, Bool.and_eq_true]
          exact ⟨hpair, by rw [childStubsMarked, Node.childrenList, hc]; rfl⟩), hrep'⟩
  | some cs =>
    cases cs with
    | nil =>
      have hcore : childCore (backfillPair name a dd st).1 = true := by
        rw [childCore, Bool.and_eq_true]
        refine ⟨by rw [Bool.or_eq_true]; exact Or.inl hpair, ?_⟩
        rw [childStubsMarked, Node.childrenList, hc]
        rfl
      simp only [genMiss, missFilterStep, hc, missChildrenStep]
      exact ⟨hcore, NewEntriesOk_store _ _ _ _ hsplit'
        (by rw [entryOk1, Bool.and_eq_true]
            exact ⟨hpair, by rw [childStubsMarked, Node.childrenList, hc]; rfl⟩), hrep'⟩
    | cons c0 cs0 =>
      have hl' : ∀ x ∈ truncateChildren a
          (dedupChildren (backfillPair name a dd st).2.cache (c0 :: cs0)),
          stubNode x = true := by
        intro x hx
        refine hstubs x ?_
        rw [Node.childrenList, hc]
        exact truncate_dedup_subset _ a _ x hx
      simp only [genMiss, missFilterStep, hc, missChildrenStep, Node.children_setChildren]
      cases hl : truncateChildren a
          (dedupChildren (backfillPair name a dd st).2.cache (c0 :: cs0)) with
      | nil =>
        dsimp only
        have hcore : childCore
            ((backfillPair name a dd st).1.setChildren (some [])) = true := by
          rw [childCore, Bool.and_eq_true]
          refine ⟨?_, ?_⟩
          · rw [Bool.or_eq_true]; left; rw [mergedPair_setChildren]; exact hpair
          · rw [childStubsMarked, childrenList_setChildren_some]; rfl
        exact ⟨hcore, NewEntriesOk_store _ _ _ _ hsplit'
          (by rw [entryOk1, Bool.and_eq_true]
              refine ⟨by rw [mergedPair_setChildren]; exact hpair, ?_⟩
              rw [childStubsMarked, childrenList_setChildren_some]; rfl), hrep'⟩
      | cons d0 ds0 =>
        dsimp only
        have hstubs' : ∀ x ∈ (d0 :: ds0), stubNode x = true := by
          intro x hx; refine hl' x ?_; rw [hl]; exact hx
        have hppn : ∀ x ∈
            ((backfillPair name a dd st).1.setChildren (some (d0 :: ds0))).childrenList,
            (x.practiceProblems).isNone = true := by
          intro x hx
          rw [childrenList_setChildren_some] at hx
          have := hstubs' x hx
          rw [stubNode, Bool.and_eq_true, Bool.and_eq_true] at this
          exact this.1.2
        have hcore : childCore (collapseChildren
            ((backfillPair name a dd st).1.setChildren (some (d0 :: ds0)))) = true := by
          rw [childCore, Bool.and_eq_true]
          constructor
          · rw [Bool.or_eq_true]
            left
            rw [mergedPair_collapseChildren, mergedPair_setChildren]
            exact hpair
          · exact childStubsMarked_collapseChildren _ hppn
        refine ⟨hcore, NewEntriesOk_store _ _ _ _ hsplit' ?_, hrep'⟩
        rw [entryOk1, Bool.and_eq_true]
        constructor
        · rw [mergedPair_collapseChildren, mergedPair_setChildren]; exact hpair
        · exact childStubsMarked_collapseChildren _ hppn

theorem genFuel0_child_spec (base : List (String × Node)) (name : String)
    (a : List String) (st : St)
    (hsplit : NewEntriesOk base st.cache)
    (hbase : cacheLookup base (sanitizeTopicName name) = none)
    (hrep : RepliesOk st) :
    childCore (generateSkillTreeFuel 0 name a st).1 = true ∧
    NewEntriesOk base (generateSkillTreeFuel 0 name a st).2.cache ∧
    RepliesOk (generateSkillTreeFuel 0 name a st).2 := by
  obtain ⟨cache, crep, trep, calls⟩ := st
  cases hlk : cacheLookup cache (sanitizeTopicName name) with
  | some v =>
    have hv : entryOk1 v = true :=
      NewEntriesOk_lookup base cache (sanitizeTopicName name) v hsplit hbase hlk
    simp only [generateSkillTreeFuel, genCore, hlk]
    exact genHit_none_child_spec base name a v _ hsplit hrep hv
  | none =>
    cases trep with
    | nil =>
      simp only [generateSkillTreeFuel, genCore, hlk, popTreeReply]
      exact ⟨childCore_degraded _ _, hsplit, hrep.1, hrep.2⟩
    | cons r rest =>
      have hrest : ∀ x ∈ rest, treeReplyWF x = true :=
        fun x hx => hrep.2 x (List.mem_cons_of_mem _ hx)
      cases r with
      | error msg =>
        simp only [generateSkillTreeFuel, genCore, hlk, popTreeReply]
        exact ⟨childCore_degraded _ _, hsplit, hrep.1, hrest⟩
      | ok dd =>
        have hdd : (dd.childrenList).all stubNode = true :=
          hrep.2 (.ok dd) (List.mem_cons_self _ _)
        simp only [generateSkillTreeFuel, genCore, hlk, popTreeReply]
        exact genMiss_none_child_spec base name a dd _ hsplit ⟨hrep.1, hrest⟩ hdd

theorem buildChildrenSeq_fuel0_spec (base : List (String × Node)) (a : List String) :
    ∀ (stubs : List Node) (st : St),
      NewEntriesOk base st.cache → RepliesOk st →
      (∀ c ∈ stubs, cacheLookup base (sanitizeTopicName c.name) = none) →
      (∀ x ∈ (buildChildrenSeq (fun nm a' s' => generateSkillTreeFuel 0 nm a' s')
          a stubs st).1, childShape x = true) ∧
      NewEntriesOk base (buildChildrenSeq (fun nm a' s' => generateSkillTreeFuel 0 nm a' s')
          a stubs st).2.cache ∧
      RepliesOk (buildChildrenSeq (fun nm a' s' => generateSkillTreeFuel 0 nm a' s')
          a stubs st).2 := by
  intro stubs
  induction stubs with
  | nil =>
    intro st h1 h2 h3
    exact ⟨fun x hx => absurd hx (List.not_mem_nil x), h1, h2⟩
  | cons c cs ih =>
    intro st h1 h2 h3
    obtain ⟨hc1, hc2, hc3⟩ := genFuel0_child_spec base c.name a st h1
      (h3 c (List.mem_cons_self _ _)) h2
    obtain ⟨ht1, ht2, ht3⟩ := ih (generateSkillTreeFuel 0 c.name a st).2 hc2 hc3
      (fun x hx => h3 x (List.mem_cons_of_mem _ hx))
    refine ⟨?_, ht2, ht3⟩
    intro x hx
    rcases List.mem_cons.mp hx with h | h
    · rw [h]
      exact childShape_of_core _ hc1
    · exact ht1 x h

/-- C1 amended: for a build with maxDepth = 1 on an uncached topic, assuming
the documented model-reply contracts, every direct child of the returned node
is hydrated with a coherent content pair — non-empty practiceProblems and
videoTutorials, or both present and empty when the backfill itself failed, or
the degraded Error shape when the child's own synthesis failed — the child is
marked collapsed = true, and each child's own children, if any, are stubs
marked collapsed = true: grandchildren are never expanded. -/
theorem maxDepth1_children_shape (topic : String) (anc : List String) (st : St)
    (hmiss : cacheLookup st.cache (sanitizeTopicName topic) = none)
    (hrep : RepliesOk st) :
    ∀ c ∈ (generateSkillTree_Gemini topic anc 0 1 st).1.childrenList,
      childShape c = true := by
  obtain ⟨cache, crep, trep, calls⟩ := st
  cases trep with
  | nil =>
    intro c hc
    simp [generateSkillTree_Gemini, generateSkillTreeFuel, genCore, hmiss, popTreeReply,
      degradedNode, Node.childrenList] at hc
  | cons r rest =>
    have hrest : ∀ x ∈ rest, treeReplyWF x = true :=
      fun x hx => hrep.2 x (List.mem_cons_of_mem _ hx)
    cases r with
    | error msg =>
      intro c hc
      simp [generateSkillTree_Gemini, generateSkillTreeFuel, genCore, hmiss, popTreeReply,
        degradedNode, Node.childrenList] at hc
    | ok dd =>
      have hdd0 : (dd.childrenList).all stubNode = true :=
        hrep.2 (.ok dd) (List.mem_cons_self _ _)
      have hdd : ∀ x ∈ dd.childrenList, stubNode x = true := by
        rw [List.all_eq_true] at hdd0; exact hdd0
      simp only [generateSkillTree_Gemini, generateSkillTreeFuel, genCore, hmiss,
        popTreeReply]
      -- now the goal is about genMiss (some builder-at-budget-0) on dd
      obtain ⟨hpair, hch, hnm, hcache, htrep, hcont⟩ :=
        backfillPair_spec topic anc dd (St.mk cache crep rest (calls + 1)) hrep.1
      have hrep' : RepliesOk (backfillPair topic anc dd
          (St.mk cache crep rest (calls + 1))).2 :=
        ⟨hcont, by rw [htrep]; exact hrest⟩
      cases hc : (backfillPair topic anc dd (St.mk cache crep rest (calls + 1))).1.children with
      | none =>
        intro c hcm
        simp only [genMiss, missFilterStep, hc, missChildrenStep, Node.childrenList, hc,
          Option.getD_none] at hcm
        exact absurd hcm (List.not_mem_nil c)
      | some cs =>
        cases cs with
        | nil =>
          intro c hcm
          simp only [genMiss, missFilterStep, hc, missChildrenStep, Node.childrenList,
            Node.children_setChildren] at hcm
          simp at hcm
        | cons c0 cs0 =>
          simp only [genMiss, missFilterStep, hc, missChildrenStep,
            Node.children_setChildren]
          have hsub : ∀ x ∈ truncateChildren anc
              (dedupChildren (backfillPair topic anc dd (St.mk cache crep rest (calls + 1))).2.cache
                (c0 :: cs0)),
              cacheLookup cache (sanitizeTopicName x.name) = none := by
            intro x hx
            have hx' : x ∈ dedupChildren (backfillPair topic anc dd
                (St.mk cache crep rest (calls + 1))).2.cache (c0 :: cs0) := by
              have h1 : (truncateChildren anc (dedupChildren (backfillPair topic anc dd
                  (St.mk cache crep rest (calls + 1))).2.cache (c0 :: cs0))).Sublist
                  (dedupChildren (backfillPair topic anc dd
                    (St.mk cache crep rest (calls + 1))).2.cache (c0 :: cs0)) := by
                rw [truncateChildren_eq_take]
                exact List.take_sublist _ _
              exact h1.subset hx
            have hne := mem_dedupChildren_not_cached _ _ x hx'
            rw [hcache] at hne
            exact lookup_none_of_not_exists cache x.name hne
          cases hl : truncateChildren anc
              (dedupChildren (backfillPair topic anc dd (St.mk cache crep rest (calls + 1))).2.cache (c0 :: cs0)) with
          | nil =>
            intro c hcm
            dsimp only at hcm
            rw [Node.childrenList, Node.children_setChildren] at hcm
            simp at hcm
          | cons d0 ds0 =>
            dsimp only
            obtain ⟨hall, _, _⟩ := buildChildrenSeq_fuel0_spec cache
              (anc ++ [((backfillPair topic anc dd (St.mk cache crep rest (calls + 1))).1.setChildren (some (d0 :: ds0))).name])
              (d0 :: ds0)
              (backfillPair topic anc dd (St.mk cache crep rest (calls + 1))).2
              (by rw [hcache]; exact ⟨[], rfl, fun kv hkv => absurd hkv (List.not_mem_nil kv)⟩)
              hrep'
              (fun c hcmem => hsub c (by rw [hl]; exact hcmem))
            intro c hcm
            rw [Node.childrenList, Node.children_setChildren] at hcm
            exact hall c hcm

/-- Reply streams for claim C1: an uncached root whose own content is full,
with one stub child whose tree reply carries empty content and whose backfill
call then fails. -/
def stC1 : St :=
  { cache := [], contentReplies := [.error "boom"],
    treeReplies := [.ok (.mk "Root" none (some [.mk "Branch" none none none none none])
        (some [{ q := "q1", s := "s1" }]) (some [{ title := "t", url := "u" }]) none),
      .ok (.mk "Branch" none (some []) (some []) (some []) none)],
    calls := 0 }

/-- C1 counterexample: on an uncached topic with maxDepth = 1 — and even with
replies following the documented contracts — a direct child of the returned
node can end with both content lists present and empty (its own backfill
failed): neither non-empty content nor the documented degraded Error shape,
so the claim as stated is false. -/
theorem maxDepth1_claimed_shape_counterexample :
    cacheLookup stC1.cache (sanitizeTopicName "Root") = none ∧
    RepliesOk stC1 ∧
    ((generateSkillTree_Gemini "Root" [] 0 1 stC1).1.childrenList.all
      (fun c => bothNonEmpty c || errorContent c)) = false :=
  ⟨rfl, ⟨by decide, by decide⟩, rfl⟩

theorem maxDepth1_children_shape_witness :
    cacheLookup stC1.cache (sanitizeTopicName "Root") = none ∧
    RepliesOk stC1 ∧
    (∀ c ∈ (generateSkillTree_Gemini "Root" [] 0 1 stC1).1.childrenList,
      childShape c = true) :=
  ⟨rfl, ⟨by decide, by decide⟩,
   maxDepth1_children_shape "Root" [] stC1 rfl ⟨by decide, by decide⟩⟩
